import Mathlib

/-!
# Verification of the merchant-dashboard page-builder block model

Shallow embedding of the page-builder core of the `merchant-dashboard`
repository: the JSON round-trip used for page `content`
(`JSON.parse` / `JSON.stringify`), the block-list mutation operations of
`VisualPageEditor.tsx`, `PageBuilder.tsx` and the Shopify-style editors,
and the two block renderers (`VisualPageEditor.renderBlock`,
`BlockCanvas.renderBlockPreview`).
-/

namespace MerchantDashboard

/-- JSON values as produced by `JSON.parse` and consumed by
`JSON.stringify`.  Numbers are modelled as integers (the block configs in
this repository only carry integral numbers); object members keep their
insertion order, as JavaScript objects do. -/
inductive Json where
| null : Json
| bool (b : Bool) : Json
| num (n : Int) : Json
| str (s : String) : Json
| arr (elems : List Json) : Json
| obj (members : List (String × Json)) : Json

/-- The decimal digit character for `d % 10`. -/
def natDigitChar (d : Nat) : Char := Char.ofNat (48 + d % 10)

/-- Decimal digits of `n`, most significant first. -/
def natDigits (n : Nat) : List Char :=
  if h : n < 10 then [natDigitChar n]
  else natDigits (n / 10) ++ [natDigitChar (n % 10)]
decreasing_by exact Nat.div_lt_self (by omega) (by omega)

/-- Decimal representation of an integer, as `JSON.stringify` prints it. -/
def intChars (n : Int) : List Char :=
  if n < 0 then '-' :: natDigits n.natAbs else natDigits n.toNat

/-- `JSON.stringify` string escaping for one character (the common escapes;
control characters outside this set do not occur in block configs). -/
def escChar (c : Char) : List Char :=
  if c = '"' then ['\\', '"']
  else if c = '\\' then ['\\', '\\']
  else if c = '\n' then ['\\', 'n']
  else if c = '\t' then ['\\', 't']
  else if c = '\r' then ['\\', 'r']
  else [c]

/-- Escape a whole string body. -/
def escStr : List Char → List Char
| [] => []
| c :: cs => escChar c ++ escStr cs

mutual

/-- `JSON.stringify(v)` (no extra whitespace), as a character list. -/
def printChars : Json → List Char
| .null => 'n' :: 'u' :: ['l', 'l']
| .bool true => 't' :: 'r' :: ['u', 'e']
| .bool false => 'f' :: 'a' :: ['l', 's', 'e']
| .num n => intChars n
| .str s => '"' :: (escStr s.data ++ ['"'])
| .arr [] => ['[', ']']
| .arr (v :: vs) => '[' :: printElemsChars v vs
| .obj [] => ['{', '}']
| .obj (m :: ms) => '{' :: printMembersChars m ms
termination_by v => sizeOf v
decreasing_by all_goals (simp_wf <;> omega)

/-- Comma-separated array elements followed by the closing bracket. -/
def printElemsChars : Json → List Json → List Char
| v, [] => printChars v ++ [']']
| v, w :: vs => printChars v ++ ',' :: printElemsChars w vs
termination_by v vs => sizeOf v + sizeOf vs
decreasing_by all_goals (simp_wf <;> omega)

/-- Comma-separated object members followed by the closing brace. -/
def printMembersChars : String × Json → List (String × Json) → List Char
| (k, v), [] => '"' :: (escStr k.data ++ '"' :: ':' :: (printChars v ++ ['}']))
| (k, v), m :: ms =>
    '"' :: (escStr k.data ++ '"' :: ':' :: (printChars v ++ ',' :: printMembersChars m ms))
termination_by m ms => sizeOf m + sizeOf ms
decreasing_by all_goals (simp_wf <;> omega)

end

/-- `JSON.stringify`, as a `String`. -/
def serializeJson (v : Json) : String := String.mk (printChars v)

/-- JSON insignificant whitespace. -/
def isWsChar (c : Char) : Bool := c = ' ' || c = '\n' || c = '\t' || c = '\r'

/-- Drop leading JSON whitespace. -/
def skipWs : List Char → List Char
| [] => []
| c :: cs => if isWsChar c then skipWs cs else c :: cs

/-- Split off a maximal run of leading decimal digits. -/
def takeDigits : List Char → List Char × List Char
| [] => ([], [])
| c :: cs =>
  if c.isDigit then
    let p := takeDigits cs
    (c :: p.1, p.2)
  else ([], c :: cs)

/-- Read a digit run back as a number. -/
def digitsToNat (ds : List Char) : Nat :=
  ds.foldl (fun a c => a * 10 + (c.toNat - 48)) 0

/-- Resolve one JSON string escape. -/
def unescChar (c : Char) : Option Char :=
  if c = '"' then some '"'
  else if c = '\\' then some '\\'
  else if c = '/' then some '/'
  else if c = 'n' then some '\n'
  else if c = 't' then some '\t'
  else if c = 'r' then some '\r'
  else if c = 'b' then some (Char.ofNat 8)
  else if c = 'f' then some (Char.ofNat 12)
  else none

mutual

/-- Parse a JSON string body after the opening quote; returns the decoded
characters and the input after the closing quote. -/
def parseStrBody : List Char → Option (List Char × List Char)
| [] => none
| c :: cs =>
  if c = '"' then some ([], cs)
  else if c = '\\' then parseEscTail cs
  else
    match parseStrBody cs with
    | some p => some (c :: p.1, p.2)
    | none => none
termination_by cs => cs.length
decreasing_by all_goals (simp_wf <;> omega)

/-- Parse the remainder of a string body after a backslash. -/
def parseEscTail : List Char → Option (List Char × List Char)
| [] => none
| e :: cs2 =>
  match unescChar e, parseStrBody cs2 with
  | some d, some p => some (d :: p.1, p.2)
  | _, _ => none
termination_by cs => cs.length
decreasing_by all_goals (simp_wf <;> omega)

end

/-- Does the input start with the given literal characters? -/
def stripLit : List Char → List Char → Option (List Char)
| [], r => some r
| p :: ps, c :: cs => if c = p then stripLit ps cs else none
| _ :: _, [] => none

/-- Is the head of the input the given character? -/
def headIs (c : Char) : List Char → Bool
| [] => false
| d :: _ => d = c

mutual

/-- Recursive-descent JSON value parser (model of `JSON.parse`), with fuel
decremented on every recursive call. -/
def parseVal : Nat → List Char → Option (Json × List Char)
| 0, _ => none
| fuel + 1, cs0 =>
  match skipWs cs0 with
  | [] => none
  | c :: r =>
    if c = 'n' then
      match stripLit ['u', 'l', 'l'] r with
      | some r2 => some (.null, r2)
      | none => none
    else if c = 't' then
      match stripLit ['r', 'u', 'e'] r with
      | some r2 => some (.bool true, r2)
      | none => none
    else if c = 'f' then
      match stripLit ['a', 'l', 's', 'e'] r with
      | some r2 => some (.bool false, r2)
      | none => none
    else if c = '"' then
      match parseStrBody r with
      | some p => some (.str (String.mk p.1), p.2)
      | none => none
    else if c = '-' then
      match takeDigits r with
      | ([], _) => none
      | (ds, r2) => some (.num (-(digitsToNat ds : Int)), r2)
    else if c = '[' then
      let r1 := skipWs r
      if headIs ']' r1 then some (.arr [], r1.tail)
      else
        match parseElems fuel r1 with
        | some p => some (.arr p.1, p.2)
        | none => none
    else if c = '{' then
      let r1 := skipWs r
      if headIs '}' r1 then some (.obj [], r1.tail)
      else
        match parseMembers fuel r1 with
        | some p => some (.obj p.1, p.2)
        | none => none
    else if c.isDigit then
      match takeDigits (c :: r) with
      | (ds, r2) => some (.num (digitsToNat ds), r2)
    else none

/-- Parse one or more comma-separated array elements up to `]`. -/
def parseElems : Nat → List Char → Option (List Json × List Char)
| 0, _ => none
| fuel + 1, cs =>
  match parseVal fuel cs with
  | none => none
  | some (v, r) =>
    match skipWs r with
    | [] => none
    | c :: r2 =>
      if c = ',' then
        match parseElems fuel r2 with
        | some p => some (v :: p.1, p.2)
        | none => none
      else if c = ']' then some ([v], r2)
      else none

/-- Parse one or more comma-separated object members up to the closing
brace. -/
def parseMembers : Nat → List Char → Option (List (String × Json) × List Char)
| 0, _ => none
| fuel + 1, cs =>
  match skipWs cs with
  | [] => none
  | c :: r =>
    if c = '"' then
      match parseStrBody r with
      | none => none
      | some (k, r1) =>
        match skipWs r1 with
        | [] => none
        | c2 :: r2 =>
          if c2 = ':' then
            match parseVal fuel r2 with
            | none => none
            | some (v, r3) =>
              match skipWs r3 with
              | [] => none
              | c3 :: r4 =>
                if c3 = ',' then
                  match parseMembers fuel r4 with
                  | some p => some ((String.mk k, v) :: p.1, p.2)
                  | none => none
                else if c3 = '}' then some ([(String.mk k, v)], r4)
                else none
          else none
    else none

end

/-- `JSON.parse`: parse a whole string; fails (throws, in JavaScript) when
nothing parses or trailing non-whitespace remains. -/
def parseJson (s : String) : Option Json :=
  match parseVal (s.data.length + 1) s.data with
  | some (v, r) => if skipWs r = [] then some v else none
  | none => none

/-- Does the input start with a decimal digit? -/
def digitHead : List Char → Bool
| [] => false
| c :: _ => c.isDigit

/-! ### Digit-level lemmas -/

theorem natDigitChar_toNat (d : Nat) : (natDigitChar d).toNat = 48 + d % 10 := by
  have h : d % 10 < 10 := Nat.mod_lt _ (by omega)
  unfold natDigitChar
  generalize d % 10 = e at h ⊢
  interval_cases e <;> decide

theorem natDigitChar_isDigit (d : Nat) : (natDigitChar d).isDigit = true := by
  have h : d % 10 < 10 := Nat.mod_lt _ (by omega)
  unfold natDigitChar
  generalize d % 10 = e at h ⊢
  interval_cases e <;> decide

theorem natDigitChar_not_ws (d : Nat) : isWsChar (natDigitChar d) = false := by
  have h : d % 10 < 10 := Nat.mod_lt _ (by omega)
  unfold natDigitChar
  generalize d % 10 = e at h ⊢
  interval_cases e <;> decide

theorem natDigitChar_ne (d : Nat) (c : Char) (hc : 57 < c.toNat ∨ c.toNat < 48) :
    natDigitChar d ≠ c := by
  intro h
  have h2 := natDigitChar_toNat d
  rw [h] at h2
  have h3 : d % 10 < 10 := Nat.mod_lt _ (by omega)
  omega

theorem natDigits_ne_nil (n : Nat) : natDigits n ≠ [] := by
  rw [natDigits]
  split <;> simp

theorem natDigits_head (n : Nat) : ∃ d tl, natDigits n = natDigitChar d :: tl := by
  induction n using Nat.strong_induction_on with
  | _ n ih =>
    rw [natDigits]
    split
    · exact ⟨n, [], rfl⟩
    next h =>
      obtain ⟨d, tl, htl⟩ := ih (n / 10) (Nat.div_lt_self (by omega) (by omega))
      exact ⟨d, tl ++ [natDigitChar (n % 10)], by rw [htl]; rfl⟩

theorem natDigits_all_digits (n : Nat) : ∀ c ∈ natDigits n, c.isDigit = true := by
  induction n using Nat.strong_induction_on with
  | _ n ih =>
    rw [natDigits]
    split
    · intro c hc
      simp only [List.mem_singleton] at hc
      subst hc
      exact natDigitChar_isDigit n
    next h =>
      intro c hc
      rw [List.mem_append] at hc
      rcases hc with hc | hc
      · exact ih (n / 10) (Nat.div_lt_self (by omega) (by omega)) c hc
      · simp only [List.mem_singleton] at hc
        subst hc
        exact natDigitChar_isDigit _

theorem digitsToNat_append_one (ds : List Char) (c : Char) :
    digitsToNat (ds ++ [c]) = digitsToNat ds * 10 + (c.toNat - 48) := by
  unfold digitsToNat
  rw [List.foldl_append]
  simp [List.foldl_cons, List.foldl_nil]

theorem digitsToNat_natDigits (n : Nat) : digitsToNat (natDigits n) = n := by
  induction n using Nat.strong_induction_on with
  | _ n ih =>
    rw [natDigits]
    split
    next h =>
      unfold digitsToNat
      simp only [List.foldl_cons, List.foldl_nil, natDigitChar_toNat]
      omega
    next h =>
      rw [digitsToNat_append_one, ih (n / 10) (Nat.div_lt_self (by omega) (by omega)),
        natDigitChar_toNat]
      omega

theorem takeDigits_no_digit (cs : List Char) (h : digitHead cs = false) :
    takeDigits cs = ([], cs) := by
  cases cs with
  | nil => rfl
  | cons c cs =>
    simp only [digitHead] at h
    simp [takeDigits, h]

theorem takeDigits_digits (ds rest : List Char) (hds : ∀ c ∈ ds, c.isDigit = true)
    (hrest : digitHead rest = false) : takeDigits (ds ++ rest) = (ds, rest) := by
  induction ds with
  | nil => simpa using takeDigits_no_digit rest hrest
  | cons c ds ih =>
    have hc : c.isDigit = true := hds c (by simp)
    have h2 := ih (fun x hx => hds x (by simp [hx]))
    simp [takeDigits, hc, h2]

/-! ### String-escape round trip -/

theorem parseStrBody_cons (c : Char) (cs : List Char) :
    parseStrBody (c :: cs) =
      if c = '"' then some ([], cs)
      else if c = '\\' then parseEscTail cs
      else
        match parseStrBody cs with
        | some p => some (c :: p.1, p.2)
        | none => none := by
  rw [parseStrBody]

theorem parseEscTail_cons (e : Char) (cs2 : List Char) :
    parseEscTail (e :: cs2) =
      match unescChar e, parseStrBody cs2 with
      | some d, some p => some (d :: p.1, p.2)
      | _, _ => none := by
  rw [parseEscTail]

theorem parseStrBody_escStr (s rest : List Char) :
    parseStrBody (escStr s ++ '"' :: rest) = some (s, rest) := by
  induction s with
  | nil =>
    rw [show escStr [] = [] from rfl, List.nil_append, parseStrBody_cons, if_pos rfl]
  | cons c cs ih =>
    by_cases h1 : c = '"'
    · subst h1
      rw [show escStr ('"' :: cs) = '\\' :: '"' :: escStr cs from rfl,
        List.cons_append, List.cons_append, parseStrBody_cons,
        if_neg (by decide), if_pos rfl, parseEscTail_cons,
        show unescChar '"' = some '"' from rfl, ih]
    by_cases h2 : c = '\\'
    · subst h2
      rw [show escStr ('\\' :: cs) = '\\' :: '\\' :: escStr cs from rfl,
        List.cons_append, List.cons_append, parseStrBody_cons,
        if_neg (by decide), if_pos rfl, parseEscTail_cons,
        show unescChar '\\' = some '\\' from rfl, ih]
    by_cases h3 : c = '\n'
    · subst h3
      rw [show escStr ('\n' :: cs) = '\\' :: 'n' :: escStr cs from rfl,
        List.cons_append, List.cons_append, parseStrBody_cons,
        if_neg (by decide), if_pos rfl, parseEscTail_cons,
        show unescChar 'n' = some '\n' from rfl, ih]
    by_cases h4 : c = '\t'
    · subst h4
      rw [show escStr ('\t' :: cs) = '\\' :: 't' :: escStr cs from rfl,
        List.cons_append, List.cons_append, parseStrBody_cons,
        if_neg (by decide), if_pos rfl, parseEscTail_cons,
        show unescChar 't' = some '\t' from rfl, ih]
    by_cases h5 : c = '\r'
    · subst h5
      rw [show escStr ('\r' :: cs) = '\\' :: 'r' :: escStr cs from rfl,
        List.cons_append, List.cons_append, parseStrBody_cons,
        if_neg (by decide), if_pos rfl, parseEscTail_cons,
        show unescChar 'r' = some '\r' from rfl, ih]
    have he : escStr (c :: cs) = c :: escStr cs := by
      rw [show escStr (c :: cs) = escChar c ++ escStr cs from rfl]
      rw [escChar, if_neg h1, if_neg h2, if_neg h3, if_neg h4, if_neg h5]
      rfl
    rw [he, List.cons_append, parseStrBody_cons, if_neg h1, if_neg h2, ih]

/-! ### Fuel bounds for the parser -/

mutual

/-- Fuel sufficient for `parseVal` to parse the printed form of `v`. -/
def fuelOf : Json → Nat
| .null => 1
| .bool _ => 1
| .num _ => 1
| .str _ => 1
| .arr [] => 1
| .arr (v :: vs) => 1 + elemsFuel v vs
| .obj [] => 1
| .obj (m :: ms) => 1 + membersFuel m ms
termination_by v => sizeOf v
decreasing_by all_goals (simp_wf <;> omega)

/-- Fuel sufficient for `parseElems` on printed elements. -/
def elemsFuel : Json → List Json → Nat
| v, [] => 1 + fuelOf v
| v, w :: vs => 1 + max (fuelOf v) (elemsFuel w vs)
termination_by v vs => sizeOf v + sizeOf vs
decreasing_by all_goals (simp_wf <;> omega)

/-- Fuel sufficient for `parseMembers` on printed members. -/
def membersFuel : String × Json → List (String × Json) → Nat
| (_, v), [] => 1 + fuelOf v
| (_, v), m :: ms => 1 + max (fuelOf v) (membersFuel m ms)
termination_by m ms => sizeOf m + sizeOf ms
decreasing_by all_goals (simp_wf <;> omega)

end

theorem fuelOf_pos (v : Json) : 1 ≤ fuelOf v := by
  cases v with
  | null => simp [fuelOf]
  | bool b => simp [fuelOf]
  | num n => simp [fuelOf]
  | str s => simp [fuelOf]
  | arr l => cases l <;> simp [fuelOf]
  | obj l => cases l with
    | nil => simp [fuelOf]
    | cons m ms =>
      obtain ⟨k, w⟩ := m
      simp [fuelOf]

theorem elemsFuel_pos (v : Json) (vs : List Json) : 1 ≤ elemsFuel v vs := by
  cases vs <;> simp [elemsFuel]

theorem membersFuel_pos (m : String × Json) (ms : List (String × Json)) :
    1 ≤ membersFuel m ms := by
  obtain ⟨k, w⟩ := m
  cases ms <;> simp [membersFuel]

/-! ### Head-character facts about printed JSON -/

theorem printChars_head (v : Json) :
    ∃ c tl, printChars v = c :: tl ∧ isWsChar c = false ∧ c ≠ ']' ∧ c ≠ '}' := by
  cases v with
  | null =>
    simp only [printChars]
    exact ⟨'n', _, rfl, by decide, by decide, by decide⟩
  | bool b =>
    cases b with
    | true =>
      simp only [printChars]
      exact ⟨'t', _, rfl, by decide, by decide, by decide⟩
    | false =>
      simp only [printChars]
      exact ⟨'f', _, rfl, by decide, by decide, by decide⟩
  | num n =>
    simp only [printChars]
    rw [intChars]
    by_cases h : n < 0
    · rw [if_pos h]
      exact ⟨'-', _, rfl, by decide, by decide, by decide⟩
    · rw [if_neg h]
      obtain ⟨d, tl, htl⟩ := natDigits_head n.toNat
      rw [htl]
      exact ⟨natDigitChar d, tl, rfl, natDigitChar_not_ws d,
        natDigitChar_ne d _ (by decide), natDigitChar_ne d _ (by decide)⟩
  | str s =>
    simp only [printChars]
    exact ⟨'"', _, rfl, by decide, by decide, by decide⟩
  | arr l =>
    cases l with
    | nil =>
      simp only [printChars]
      exact ⟨'[', _, rfl, by decide, by decide, by decide⟩
    | cons w ws =>
      simp only [printChars]
      exact ⟨'[', _, rfl, by decide, by decide, by decide⟩
  | obj l =>
    cases l with
    | nil =>
      simp only [printChars]
      exact ⟨'{', _, rfl, by decide, by decide, by decide⟩
    | cons m ms =>
      obtain ⟨k, w⟩ := m
      simp only [printChars]
      exact ⟨'{', _, rfl, by decide, by decide, by decide⟩

theorem skipWs_cons_not (c : Char) (cs : List Char) (h : isWsChar c = false) :
    skipWs (c :: cs) = c :: cs := by
  rw [skipWs, h]
  rfl

theorem skipWs_printChars (v : Json) (rest : List Char) :
    skipWs (printChars v ++ rest) = printChars v ++ rest := by
  obtain ⟨c, tl, hc, hws, _, _⟩ := printChars_head v
  rw [hc, List.cons_append, skipWs_cons_not _ _ hws]

theorem headIs_printChars_rb (v : Json) (rest : List Char) :
    headIs ']' (printChars v ++ rest) = false := by
  obtain ⟨c, tl, hc, _, hrb, _⟩ := printChars_head v
  rw [hc, List.cons_append]
  simp [headIs, hrb]

theorem headIs_printChars_cb (v : Json) (rest : List Char) :
    headIs '}' (printChars v ++ rest) = false := by
  obtain ⟨c, tl, hc, _, _, hcb⟩ := printChars_head v
  rw [hc, List.cons_append]
  simp [headIs, hcb]

theorem skipWs_printElems (w : Json) (vs : List Json) (rest : List Char) :
    skipWs (printElemsChars w vs ++ rest) = printElemsChars w vs ++ rest := by
  cases vs with
  | nil =>
    rw [printElemsChars, List.append_assoc]
    exact skipWs_printChars w _
  | cons x xs =>
    rw [printElemsChars, List.append_assoc]
    exact skipWs_printChars w _

theorem headIs_printElems_rb (w : Json) (vs : List Json) (rest : List Char) :
    headIs ']' (printElemsChars w vs ++ rest) = false := by
  cases vs with
  | nil =>
    rw [printElemsChars, List.append_assoc]
    exact headIs_printChars_rb w _
  | cons x xs =>
    rw [printElemsChars, List.append_assoc]
    exact headIs_printChars_rb w _

/-! ### Parser step lemmas -/

theorem parseVal_null (fuel : Nat) (r : List Char) :
    parseVal (fuel + 1) ('n' :: 'u' :: 'l' :: 'l' :: r) = some (.null, r) := by
  rw [parseVal]
  rfl

theorem parseVal_true (fuel : Nat) (r : List Char) :
    parseVal (fuel + 1) ('t' :: 'r' :: 'u' :: 'e' :: r) = some (.bool true, r) := by
  rw [parseVal]
  rfl

theorem parseVal_false (fuel : Nat) (r : List Char) :
    parseVal (fuel + 1) ('f' :: 'a' :: 'l' :: 's' :: 'e' :: r) = some (.bool false, r) := by
  rw [parseVal]
  rfl

theorem parseVal_quote (fuel : Nat) (r : List Char) :
    parseVal (fuel + 1) ('"' :: r) =
      match parseStrBody r with
      | some p => some (.str (String.mk p.1), p.2)
      | none => none := by
  rw [parseVal]
  rfl

theorem parseVal_minus (fuel : Nat) (r : List Char) :
    parseVal (fuel + 1) ('-' :: r) =
      match takeDigits r with
      | ([], _) => none
      | (ds, r2) => some (.num (-(digitsToNat ds : Int)), r2) := by
  rw [parseVal]
  rfl

theorem parseVal_lbracket (fuel : Nat) (r : List Char) :
    parseVal (fuel + 1) ('[' :: r) =
      if headIs ']' (skipWs r) then some (.arr [], (skipWs r).tail)
      else
        match parseElems fuel (skipWs r) with
        | some p => some (.arr p.1, p.2)
        | none => none := by
  rw [parseVal]
  rfl

theorem parseVal_lbrace (fuel : Nat) (r : List Char) :
    parseVal (fuel + 1) ('{' :: r) =
      if headIs '}' (skipWs r) then some (.obj [], (skipWs r).tail)
      else
        match parseMembers fuel (skipWs r) with
        | some p => some (.obj p.1, p.2)
        | none => none := by
  rw [parseVal]
  rfl

theorem parseVal_digit (fuel : Nat) (c : Char) (r : List Char)
    (hd : c.isDigit = true) (hws : isWsChar c = false)
    (h1 : c ≠ 'n') (h2 : c ≠ 't') (h3 : c ≠ 'f') (h4 : c ≠ '"') (h5 : c ≠ '-')
    (h6 : c ≠ '[') (h7 : c ≠ '{') :
    parseVal (fuel + 1) (c :: r) =
      some (.num (digitsToNat (takeDigits (c :: r)).1), (takeDigits (c :: r)).2) := by
  rw [parseVal]
  simp only [skipWs_cons_not c r hws]
  rw [if_neg h1, if_neg h2, if_neg h3, if_neg h4, if_neg h5, if_neg h6, if_neg h7, if_pos hd]

theorem String_mk_data (s : String) : String.mk s.data = s := rfl

theorem digitHead_cons (c : Char) (l : List Char) : digitHead (c :: l) = c.isDigit := rfl

theorem parseVal_digits (fuel m : Nat) (rest : List Char) (hrest : digitHead rest = false) :
    parseVal (fuel + 1) (natDigits m ++ rest) = some (.num (m : Int), rest) := by
  obtain ⟨d, tl, htl⟩ := natDigits_head m
  rw [htl, List.cons_append,
    parseVal_digit fuel _ _ (natDigitChar_isDigit d) (natDigitChar_not_ws d)
      (natDigitChar_ne d _ (by decide)) (natDigitChar_ne d _ (by decide))
      (natDigitChar_ne d _ (by decide)) (natDigitChar_ne d _ (by decide))
      (natDigitChar_ne d _ (by decide)) (natDigitChar_ne d _ (by decide))
      (natDigitChar_ne d _ (by decide)),
    ← List.cons_append, ← htl, takeDigits_digits _ rest (natDigits_all_digits _) hrest]
  dsimp only
  rw [digitsToNat_natDigits]

theorem parseVal_minus_digits (fuel m : Nat) (rest : List Char)
    (hrest : digitHead rest = false) :
    parseVal (fuel + 1) ('-' :: (natDigits m ++ rest)) = some (.num (-(m : Int)), rest) := by
  rw [parseVal_minus, takeDigits_digits _ rest (natDigits_all_digits _) hrest]
  obtain ⟨d, tl, htl⟩ := natDigits_head m
  rw [htl]
  dsimp only
  rw [← htl, digitsToNat_natDigits]

/-! ### The print-then-parse round trip -/

theorem parse_print_master : ∀ fuel : Nat,
    (∀ v rest, fuelOf v ≤ fuel → digitHead rest = false →
      parseVal fuel (printChars v ++ rest) = some (v, rest)) ∧
    (∀ v vs rest, elemsFuel v vs ≤ fuel →
      parseElems fuel (printElemsChars v vs ++ rest) = some (v :: vs, rest)) ∧
    (∀ m ms rest, membersFuel m ms ≤ fuel →
      parseMembers fuel (printMembersChars m ms ++ rest) = some (m :: ms, rest)) := by
  intro fuel
  induction fuel with
  | zero =>
    refine ⟨fun v rest h1 _ => absurd h1 ?_, fun v vs rest h1 => absurd h1 ?_,
      fun m ms rest h1 => absurd h1 ?_⟩
    · have := fuelOf_pos v
      omega
    · have := elemsFuel_pos v vs
      omega
    · have := membersFuel_pos m ms
      omega
  | succ fuel ih =>
    obtain ⟨ih1, ih2, ih3⟩ := ih
    refine ⟨?_, ?_, ?_⟩
    · intro v rest hf hrest
      cases v with
      | null =>
        simp only [printChars, List.cons_append, List.nil_append]
        exact parseVal_null fuel rest
      | bool b =>
        cases b with
        | true =>
          simp only [printChars, List.cons_append, List.nil_append]
          exact parseVal_true fuel rest
        | false =>
          simp only [printChars, List.cons_append, List.nil_append]
          exact parseVal_false fuel rest
      | num n =>
        simp only [printChars]
        by_cases hn : n < 0
        · rw [intChars, if_pos hn, List.cons_append, parseVal_minus_digits fuel _ rest hrest]
          have h2 : -((n.natAbs : Nat) : Int) = n := by omega
          rw [h2]
        · rw [intChars, if_neg hn, parseVal_digits fuel _ rest hrest]
          have h2 : ((n.toNat : Nat) : Int) = n := by omega
          rw [h2]
      | str s =>
        simp only [printChars, List.cons_append, List.append_assoc, List.singleton_append]
        rw [parseVal_quote, parseStrBody_escStr]
        dsimp only
        rw [String_mk_data, List.nil_append]
      | arr l =>
        cases l with
        | nil =>
          simp only [printChars, List.cons_append, List.nil_append]
          rw [parseVal_lbracket, skipWs_cons_not ']' rest (by decide),
            if_pos (by simp [headIs])]
          rfl
        | cons w ws =>
          simp only [printChars, List.cons_append]
          rw [parseVal_lbracket, skipWs_printElems]
          have hrb := headIs_printElems_rb w ws rest
          rw [if_neg (by rw [hrb]; exact Bool.false_ne_true)]
          simp only [fuelOf] at hf
          rw [ih2 w ws rest (by omega)]
      | obj l =>
        cases l with
        | nil =>
          simp only [printChars, List.cons_append, List.nil_append]
          rw [parseVal_lbrace, skipWs_cons_not '}' rest (by decide),
            if_pos (by simp [headIs])]
          rfl
        | cons m ms =>
          obtain ⟨k, mv⟩ := m
          simp only [printChars, List.cons_append]
          rw [parseVal_lbrace]
          rw [show printMembersChars (k, mv) ms ++ rest = '"' ::
            ((printMembersChars (k, mv) ms).tail ++ rest) from by
              cases ms <;> (rw [printMembersChars]; rfl)]
          rw [skipWs_cons_not '"' _ (by decide)]
          rw [if_neg (by simp [headIs])]
          rw [show ('"' : Char) :: ((printMembersChars (k, mv) ms).tail ++ rest) =
            printMembersChars (k, mv) ms ++ rest from by
              cases ms <;> (rw [printMembersChars]; rfl)]
          simp only [fuelOf] at hf
          rw [ih3 (k, mv) ms rest (by omega)]
    · intro v vs rest hf
      cases vs with
      | nil =>
        rw [printElemsChars, List.append_assoc, List.singleton_append, parseElems]
        simp only [elemsFuel] at hf
        rw [ih1 v (']' :: rest) (by omega) (by rw [digitHead_cons]; decide)]
        dsimp only
        rw [skipWs_cons_not ']' rest (by decide)]
        dsimp only
        rw [if_neg (by decide), if_pos rfl]
      | cons w vs2 =>
        simp only [printElemsChars, List.cons_append, List.append_assoc]
        rw [parseElems]
        simp only [elemsFuel] at hf
        have hmax : max (fuelOf v) (elemsFuel w vs2) ≤ fuel := by omega
        obtain ⟨hf1, hf2⟩ := Nat.max_le.mp hmax
        rw [ih1 v _ hf1 (by rw [digitHead_cons]; decide)]
        dsimp only
        rw [skipWs_cons_not ',' _ (by decide)]
        dsimp only
        rw [if_pos rfl, ih2 w vs2 rest hf2]
    · intro m ms rest hf
      obtain ⟨k, mv⟩ := m
      cases ms with
      | nil =>
        rw [printMembersChars]
        simp only [List.cons_append, List.append_assoc, List.singleton_append,
          List.nil_append, parseMembers]
        rw [skipWs_cons_not '"' _ (by decide)]
        dsimp only
        rw [if_pos rfl, parseStrBody_escStr]
        dsimp only
        rw [skipWs_cons_not ':' _ (by decide)]
        dsimp only
        rw [if_pos rfl]
        simp only [membersFuel] at hf
        rw [ih1 mv ('}' :: rest) (by omega) (by rw [digitHead_cons]; decide)]
        dsimp only
        rw [skipWs_cons_not '}' rest (by decide)]
        dsimp only
        rw [if_neg (by decide), if_pos rfl, String_mk_data]
      | cons m2 ms2 =>
        rw [printMembersChars]
        simp only [List.cons_append, List.append_assoc, List.nil_append, parseMembers]
        rw [skipWs_cons_not '"' _ (by decide)]
        dsimp only
        rw [if_pos rfl, parseStrBody_escStr]
        dsimp only
        rw [skipWs_cons_not ':' _ (by decide)]
        dsimp only
        rw [if_pos rfl]
        simp only [membersFuel] at hf
        have hmax : max (fuelOf mv) (membersFuel m2 ms2) ≤ fuel := by omega
        obtain ⟨hf1, hf2⟩ := Nat.max_le.mp hmax
        rw [ih1 mv _ hf1 (by rw [digitHead_cons]; decide)]
        dsimp only
        rw [skipWs_cons_not ',' _ (by decide)]
        dsimp only
        rw [if_pos rfl, ih3 m2 ms2 rest hf2]

theorem elemsFuel_le (v : Json) (vs : List Json)
    (h : ∀ x ∈ v :: vs, fuelOf x ≤ (printChars x).length) :
    elemsFuel v vs ≤ (printElemsChars v vs).length := by
  induction vs generalizing v with
  | nil =>
    rw [elemsFuel, printElemsChars]
    have h1 := h v (by simp)
    simp only [List.length_append, List.length_cons, List.length_nil]
    omega
  | cons w vs ih =>
    rw [elemsFuel, printElemsChars]
    have h1 := h v (by simp)
    have h2 := ih w (fun x hx => h x (by simp only [List.mem_cons] at hx ⊢; tauto))
    have hm : max (fuelOf v) (elemsFuel w vs) ≤
        (printChars v).length + (printElemsChars w vs).length :=
      max_le (h1.trans (by omega)) (h2.trans (by omega))
    simp only [List.length_append, List.length_cons]
    omega

theorem membersFuel_le (m : String × Json) (ms : List (String × Json))
    (h : ∀ x ∈ m :: ms, fuelOf x.2 ≤ (printChars x.2).length) :
    membersFuel m ms ≤ (printMembersChars m ms).length := by
  induction ms generalizing m with
  | nil =>
    obtain ⟨k, mv⟩ := m
    rw [membersFuel, printMembersChars]
    have h1 : fuelOf mv ≤ (printChars mv).length := h (k, mv) (by simp)
    simp only [List.length_append, List.length_cons, List.length_nil]
    omega
  | cons m2 ms ih =>
    obtain ⟨k, mv⟩ := m
    rw [membersFuel, printMembersChars]
    have h1 : fuelOf mv ≤ (printChars mv).length := h (k, mv) (by simp)
    have h2 := ih m2 (fun x hx => h x (by simp only [List.mem_cons] at hx ⊢; tauto))
    have hm : max (fuelOf mv) (membersFuel m2 ms) ≤
        (printChars mv).length + (printMembersChars m2 ms).length :=
      max_le (h1.trans (by omega)) (h2.trans (by omega))
    simp only [List.length_append, List.length_cons]
    omega

theorem fuelOf_le_printLength : (v : Json) → fuelOf v ≤ (printChars v).length
| .null => by simp [fuelOf, printChars]
| .bool b => by cases b <;> simp [fuelOf, printChars]
| .num n => by
    simp only [fuelOf, printChars]
    have hne : intChars n ≠ [] := by
      rw [intChars]
      split
      · simp
      · exact natDigits_ne_nil _
    have := List.length_pos.mpr hne
    omega
| .str s => by
    simp only [fuelOf, printChars, List.length_cons]
    omega
| .arr [] => by simp [fuelOf, printChars]
| .arr (w :: ws) => by
    simp only [fuelOf, printChars, List.length_cons]
    have h := elemsFuel_le w ws (fun x hx => fuelOf_le_printLength x)
    omega
| .obj [] => by simp [fuelOf, printChars]
| .obj (m :: ms) => by
    simp only [fuelOf, printChars, List.length_cons]
    have h := membersFuel_le m ms (fun x hx => fuelOf_le_printLength x.2)
    omega
termination_by v => sizeOf v
decreasing_by
  · have h1 := List.sizeOf_lt_of_mem hx
    simp only [List.cons.sizeOf_spec] at h1
    simp_wf
    omega
  · have h1 := List.sizeOf_lt_of_mem hx
    obtain ⟨k, mv⟩ := x
    simp only [List.cons.sizeOf_spec, Prod.mk.sizeOf_spec] at h1
    simp_wf
    omega

/-- Print-then-parse is the identity: `JSON.parse(JSON.stringify(v))`
recovers `v` exactly. -/
theorem parseJson_serializeJson (v : Json) : parseJson (serializeJson v) = some v := by
  rw [serializeJson, parseJson]
  rw [show (String.mk (printChars v)).data = printChars v from rfl]
  have hb := fuelOf_le_printLength v
  have h1 := (parse_print_master ((printChars v).length + 1)).1 v [] (by omega) rfl
  rw [List.append_nil] at h1
  rw [h1]
  dsimp only
  rw [if_pos (show skipWs [] = [] from rfl)]

/-! ### The block model -/

/-- A page-builder block: the `Block` interface `{ id, type, config }` shared
by `PageBuilder.tsx` and the visual editors; `config` is a JavaScript object
(an ordered key-value record). -/
structure Block where
  id : String
  type : String
  config : List (String × Json)

/-- A block-type catalog entry, restricted to the fields the editor reads
when inserting a block: `name` and `default_config`. -/
structure BlockType where
  name : String
  default_config : List (String × Json)

/-- Editor state relevant to the block model: the `blocks` buffer and the
`selectedBlockId` selection. -/
structure EditorState where
  blocks : List Block
  selectedBlockId : Option String

/-- The JSON object for one block, with keys in the insertion order
`id`, `type`, `config` used by the block literals in `handleAddBlock` and
`addBlock`. -/
def blockJson (b : Block) : Json :=
  .obj [("id", .str b.id), ("type", .str b.type), ("config", .obj b.config)]

/-- The JSON array for a block list. -/
def blocksJson (bs : List Block) : Json := .arr (bs.map blockJson)

/-- `JSON.stringify(blocks)`, as called by `savePage`. -/
def serialize (bs : List Block) : String := serializeJson (blocksJson bs)

/-- The `try { JSON.parse(content) } catch { setBlocks([]) }` pattern of
`loadPage`: malformed JSON yields the empty block list (parsed output is
used unvalidated, so the result is a raw JSON value). -/
def deserialize (x : String) : Json :=
  match parseJson x with
  | some v => v
  | none => .arr []

/-- The whole load path: `JSON.parse(response.data.content || '[]')` with
the defensive catch; absent or empty content is replaced by `'[]'` before
parsing. -/
def loadBlocks (content : Option String) : Json :=
  deserialize (match content with
    | none => "[]"
    | some c => if c = "" then "[]" else c)

/-! ### Editor operations -/

/-- First-match association lookup: JavaScript object property access. -/
def cfgGet (k : String) : List (String × Json) → Option Json
| [] => none
| (k2, v) :: rest => if k2 = k then some v else cfgGet k rest

/-- JavaScript object spread `{ ...base, ...patch }`: keys of `base` keep
their position (patched values winning), keys only in `patch` are appended
in order. -/
def mergeConfig (base patch : List (String × Json)) : List (String × Json) :=
  (base.map (fun kv => match cfgGet kv.1 patch with
    | some w => (kv.1, w)
    | none => kv))
  ++ patch.filter (fun kv => (cfgGet kv.1 base).isNone)

/-- The id string `block-${Date.now()}` generated by `VisualPageEditor.addBlock`
(and the Shopify-style editors); the clock reading is an explicit argument. -/
def genIdVisual (now : Nat) : String := "block-" ++ String.mk (natDigits now)

/-- The id string `block-${Date.now()}-${Math.random().toString(36).substr(2, 9)}`
generated by `PageBuilder.handleAddBlock` and `handleDuplicateBlock`; the
clock reading and random suffix are explicit arguments. -/
def genIdBuilder (now : Nat) (rand : String) : String :=
  "block-" ++ String.mk (natDigits now) ++ "-" ++ rand

/-- `VisualPageEditor.addBlock(blockType)`: appends
`{ id: genId, type: blockType.name, config: { ...blockType.default_config } }`
and selects the new block. -/
def addBlock (s : EditorState) (genId : String) (bt : BlockType) : EditorState :=
  { blocks := s.blocks ++ [{ id := genId, type := bt.name, config := bt.default_config }],
    selectedBlockId := some genId }

/-- `PageBuilder.handleAddBlock(blockType, defaultConfig)`: appends the new
block; the selection is not changed (there is no `setSelectedBlockId` call). -/
def handleAddBlock (s : EditorState) (genId : String) (blockType : String)
    (defaultConfig : List (String × Json)) : EditorState :=
  { s with blocks :=
      s.blocks ++ [{ id := genId, type := blockType, config := defaultConfig }] }

/-- `VisualPageEditor.updateBlock(blockId, config)`:
`blocks.map(b => b.id === blockId ? { ...b, config: { ...b.config, ...config } } : b)`;
the selection is untouched. -/
def updateBlock (s : EditorState) (blockId : String)
    (config : List (String × Json)) : EditorState :=
  { s with blocks := s.blocks.map (fun b =>
      if b.id = blockId then { b with config := mergeConfig b.config config } else b) }

/-- `PageBuilder.handleUpdateBlock(blockId, config)`:
`blocks.map(block => block.id === blockId ? { ...block, config } : block)` —
the whole config record is replaced by the argument. -/
def handleUpdateBlock (s : EditorState) (blockId : String)
    (config : List (String × Json)) : EditorState :=
  { s with blocks := s.blocks.map (fun b =>
      if b.id = blockId then { b with config := config } else b) }

/-- `VisualPageEditor.deleteBlock(blockId)`: filters the block out and then
unconditionally runs `setSelectedBlockId(null)`. -/
def deleteBlock (s : EditorState) (blockId : String) : EditorState :=
  { blocks := s.blocks.filter (fun b => b.id ≠ blockId),
    selectedBlockId := none }

/-- `PageBuilder.handleDeleteBlock(blockId)`: filters the block out; the
selection is cleared only when it pointed at the deleted id. -/
def handleDeleteBlock (s : EditorState) (blockId : String) : EditorState :=
  { blocks := s.blocks.filter (fun b => b.id ≠ blockId),
    selectedBlockId :=
      if s.selectedBlockId = some blockId then none else s.selectedBlockId }

/-- Direction argument of `moveBlock`. -/
inductive Direction where
| up : Direction
| down : Direction

/-- Simultaneous swap `[updated[index], updated[newIndex]] =
[updated[newIndex], updated[index]]`. -/
def swapIdx (l : List Block) (i j : Nat) : List Block :=
  let bi := l.getD i { id := "", type := "", config := [] }
  let bj := l.getD j { id := "", type := "", config := [] }
  (l.set i bj).set j bi

/-- `moveBlock(blockId, direction)` (textually identical in
`VisualPageEditor`, `ShopifyEditor` and the Shopify-style editor):
`findIndex`, bounds check, neighbour swap; no-op when the id is absent or
the target index is out of bounds; the selection is untouched. -/
def moveBlock (s : EditorState) (blockId : String) (direction : Direction) : EditorState :=
  match s.blocks.findIdx? (fun b => b.id = blockId) with
  | none => s
  | some index =>
    let newIndex : Int := match direction with
      | .up => (index : Int) - 1
      | .down => (index : Int) + 1
    if newIndex < 0 ∨ (s.blocks.length : Int) ≤ newIndex then s
    else { s with blocks := swapIdx s.blocks index newIndex.toNat }

/-- `splice(i, 0, b)`: insert `b` at index `i` (append when `i` exceeds the
length, as JavaScript does). -/
def insertAt : Nat → Block → List Block → List Block
| _, b, [] => [b]
| 0, b, l => b :: l
| n + 1, b, x :: xs => x :: insertAt n b xs

/-- `PageBuilder.handleDuplicateBlock(blockId)`: when the id is found, a copy
with a fresh id is inserted immediately after it
(`newBlocks.splice(index + 1, 0, newBlock)`); the selection is untouched. -/
def handleDuplicateBlock (s : EditorState) (genId : String) (blockId : String) :
    EditorState :=
  match s.blocks.findIdx? (fun b => b.id = blockId) with
  | none => s
  | some index =>
    let b := s.blocks.getD index { id := "", type := "", config := [] }
    { s with blocks := insertAt (index + 1) { b with id := genId } s.blocks }

/-! ### Operation sequences, for the id-uniqueness invariant -/

/-- One block-list editing step (`addBlock` / `deleteBlock` /
`duplicateBlock`), with the freshly generated id made explicit. -/
inductive BlockOp where
| add (genId : String) (blockType : String) (config : List (String × Json)) : BlockOp
| del (blockId : String) : BlockOp
| dup (genId : String) (blockId : String) : BlockOp

/-- The effect of one op on the block list (the list-level content of
`handleAddBlock` / `handleDeleteBlock` / `handleDuplicateBlock`). -/
def applyBlockOp (bs : List Block) : BlockOp → List Block
| .add genId ty cfg => bs ++ [{ id := genId, type := ty, config := cfg }]
| .del blockId => bs.filter (fun b => b.id ≠ blockId)
| .dup genId blockId =>
  match bs.findIdx? (fun b => b.id = blockId) with
  | none => bs
  | some index =>
    let b := bs.getD index { id := "", type := "", config := [] }
    insertAt (index + 1) { b with id := genId } bs

/-- Run a sequence of ops left to right. -/
def runBlockOps (bs : List Block) : List BlockOp → List Block
| [] => bs
| op :: ops => runBlockOps (applyBlockOp bs op) ops

/-- The fresh ids a sequence of ops consumes. -/
def opGenIds : List BlockOp → List String
| [] => []
| .add g _ _ :: ops => g :: opGenIds ops
| .dup g _ :: ops => g :: opGenIds ops
| .del _ :: ops => opGenIds ops

/-! ### JavaScript value semantics used by the renderers -/

/-- JavaScript truthiness of a possibly-absent value: `undefined`, `null`,
`false`, `0` and `""` are falsy. -/
def truthy : Option Json → Bool
| none => false
| some .null => false
| some (.bool b) => b
| some (.num n) => n ≠ 0
| some (.str s) => s ≠ ""
| some (.arr _) => true
| some (.obj _) => true

mutual

/-- JavaScript `String(v)` conversion (arrays join with `,`, nested nulls
print as empty, plain objects as `[object Object]`). -/
def jsString : Json → String
| .null => "null"
| .bool true => "true"
| .bool false => "false"
| .num n => String.mk (intChars n)
| .str s => s
| .obj _ => "[object Object]"
| .arr xs => jsStringArr xs
termination_by v => sizeOf v
decreasing_by all_goals (simp_wf <;> omega)

/-- `Array.prototype.toString`: elements joined by commas, `null` elements
printing as empty. -/
def jsStringArr : List Json → String
| [] => ""
| [.null] => ""
| [x] => jsString x
| .null :: xs => "," ++ jsStringArr xs
| x :: xs => jsString x ++ "," ++ jsStringArr xs
termination_by xs => sizeOf xs
decreasing_by all_goals (simp_wf <;> omega)

end

/-- Template-literal interpolation `${x}` of a possibly-absent value:
an absent property prints as the literal text `undefined`. -/
def jsStringOpt : Option Json → String
| none => "undefined"
| some v => jsString v

/-- `${x || 'dflt'}`: the interpolated value of a short-circuit default. -/
def jsOr (v : Option Json) (dflt : String) : String :=
  if truthy v then jsStringOpt v else dflt

/-- `a || b` on values: `b` when `a` is falsy. -/
def jsOrElse (v : Option Json) (dflt : Json) : Json :=
  match v with
  | some w => if truthy (some w) then w else dflt
  | none => dflt

/-! ### React rendering semantics for `BlockCanvas.renderBlockPreview` -/

mutual

/-- React child rendering of `{expr}` with fuel for nested arrays: strings
and numbers render; booleans, `null` and `undefined` render nothing; arrays
render elementwise; plain objects are invalid React children (render-time
error). -/
def jsxTextF : Option Json → Nat → Except String String
| none, _ => .ok ""
| some .null, _ => .ok ""
| some (.bool _), _ => .ok ""
| some (.str s), _ => .ok s
| some (.num n), _ => .ok (String.mk (intChars n))
| some (.obj _), _ => .error "Objects are not valid as a React child"
| some (.arr _), 0 => .ok ""
| some (.arr xs), fuel + 1 => jsxTextList xs fuel

/-- Elementwise React rendering of an array child. -/
def jsxTextList : List Json → Nat → Except String String
| [], _ => .ok ""
| _ :: _, 0 => .ok ""
| x :: xs, fuel + 1 => do
  let a ← jsxTextF (some x) fuel
  let r ← jsxTextList xs fuel
  .ok (a ++ r)

end

/-- React child rendering of `{expr}`; the fuel bounds the nesting depth of
array children (the block configs in this repository are flat, so 100
levels is ample). -/
def jsxText (v : Option Json) : Except String String := jsxTextF v 100

/-- React attribute value: `undefined` and `null` attributes are omitted. -/
def jsxAttr : Option Json → String
| none => ""
| some .null => ""
| some v => jsString v

/-- JavaScript property access `x.k`: objects look the key up, `null` and
`undefined` throw, primitives yield `undefined`. -/
def jsField : Option Json → String → Except String (Option Json)
| none, _ => .error "TypeError: cannot read properties of undefined"
| some .null, _ => .error "TypeError: cannot read properties of null"
| some (.obj ms), k => .ok (cfgGet k ms)
| some _, _ => .ok none

/-- `x?.slice(0, n)`: short-circuits on `undefined`/`null`, takes a prefix
of an array, and throws on any other value. -/
def jsSliceOpt : Option Json → Nat → Except String (Option (List Json))
| none, _ => .ok none
| some .null, _ => .ok none
| some (.arr xs), n => .ok (some (xs.take n))
| some _, _ => .error "TypeError: slice is not a function"

/-- `x.slice(0, n)` on a (truthy) value: arrays only, anything else throws. -/
def jsSliceVal : Json → Nat → Except String (List Json)
| .arr xs, n => .ok (xs.take n)
| _, _ => .error "TypeError: slice is not a function"

/-- `x.map(...)` receiver check: arrays only, anything else throws. -/
def jsMapVal : Json → Except String (List Json)
| .arr xs => .ok xs
| _ => .error "TypeError: map is not a function"

/-- `x?.substring(0, n)`: short-circuits on `undefined`/`null`, prefixes a
string, and throws on any other value. -/
def jsSubstringOpt : Option Json → Nat → Except String (Option String)
| none, _ => .ok none
| some .null, _ => .ok none
| some (.str s), n => .ok (some (String.mk (s.data.take n)))
| some _, _ => .error "TypeError: substring is not a function"

/-- `x === 'lit'` for a config value. -/
def jsEqStr (v : Option Json) (s : String) : Bool :=
  match v with
  | some (.str t) => t = s
  | _ => false

/-- `(x)[0].toUpperCase()`: works on non-empty strings, throws otherwise. -/
def jsUpperFirst : Json → Except String String
| .str s =>
  match s.data with
  | [] => .error "TypeError: cannot read toUpperCase of undefined"
  | ch :: _ => .ok (String.mk [ch.toUpper])
| _ => .error "TypeError: toUpperCase is not a function"

/-! ### `VisualPageEditor.renderBlock`: the HTML-string renderer

The template literals are reproduced with their interpolations and literal
texts intact; insignificant indentation whitespace inside the templates is
condensed. -/

def renderBlock (block : Block) : String :=
  let c := block.config
  if block.type = "hero" then
    "<div style=\"height: " ++ jsOr (cfgGet "height" c) "600px" ++
    "; background-image: url('" ++ jsStringOpt (cfgGet "backgroundImage" c) ++
    "'); background-size: cover; background-position: center; display: flex; " ++
    "align-items: center; justify-content: center; color: " ++
    jsOr (cfgGet "textColor" c) "#fff" ++
    "; text-align: center; padding: 40px;\"><div>" ++
    "<h1 style=\"font-size: 3rem; margin-bottom: 1rem;\">" ++
    jsOr (cfgGet "title" c) "Hero Title" ++
    "</h1><p style=\"font-size: 1.5rem; margin-bottom: 2rem;\">" ++
    jsOr (cfgGet "subtitle" c) "Subtitle" ++
    "</p><a href=\"" ++ jsOr (cfgGet "buttonLink" c) "#" ++
    "\" style=\"background: " ++ jsOr (cfgGet "buttonColor" c) "#667eea" ++
    "; color: white; padding: 15px 40px; text-decoration: none; " ++
    "border-radius: 5px; font-weight: bold;\">" ++
    jsOr (cfgGet "buttonText" c) "Click Here" ++ "</a></div></div>"
  else if block.type = "text" then
    "<div style=\"max-width: " ++ jsOr (cfgGet "maxWidth" c) "800px" ++
    "; margin: 40px auto; padding: 0 20px;\"><h2 style=\"font-size: " ++
    jsOr (cfgGet "headingSize" c) "2rem" ++ "; color: " ++
    jsOr (cfgGet "headingColor" c) "#333" ++ "; margin-bottom: 1rem;\">" ++
    jsOr (cfgGet "heading" c) "Heading" ++
    "</h2><div style=\"font-size: " ++ jsOr (cfgGet "textSize" c) "1rem" ++
    "; color: " ++ jsOr (cfgGet "textColor" c) "#666" ++ "; line-height: 1.6;\">" ++
    jsOr (cfgGet "content" c) "<p>Your content here...</p>" ++ "</div></div>"
  else if block.type = "image" then
    "<div style=\"text-align: center; margin: 40px auto; max-width: " ++
    jsOr (cfgGet "maxWidth" c) "100%" ++ ";\"><img src=\"" ++
    jsOr (cfgGet "src" c) "/assets/placeholder.jpg" ++ "\" alt=\"" ++
    jsOr (cfgGet "alt" c) "Image" ++ "\" style=\"border-radius: " ++
    jsOr (cfgGet "borderRadius" c) "0px" ++ ";\" />" ++
    (if truthy (cfgGet "caption" c) then
      "<p style=\"margin-top: 10px; color: #666; font-size: 0.9rem;\">" ++
      jsStringOpt (cfgGet "caption" c) ++ "</p>"
    else "") ++ "</div>"
  else if block.type = "call-to-action" then
    "<div style=\"background: " ++ jsOr (cfgGet "backgroundColor" c) "#667eea" ++
    "; color: " ++ jsOr (cfgGet "textColor" c) "#fff" ++
    "; padding: 60px 40px; text-align: center; margin: 40px 0;\">" ++
    "<h2 style=\"font-size: 2.5rem; margin-bottom: 1rem;\">" ++
    jsOr (cfgGet "title" c) "Ready to get started?" ++
    "</h2><p style=\"font-size: 1.2rem; margin-bottom: 2rem;\">" ++
    jsOr (cfgGet "description" c) "Description" ++
    "</p><a href=\"" ++ jsOr (cfgGet "buttonLink" c) "#" ++
    "\" style=\"background: " ++ jsOr (cfgGet "buttonColor" c) "#fff" ++
    "; color: #667eea; padding: 15px 40px; text-decoration: none; " ++
    "border-radius: 5px; font-weight: bold; display: inline-block;\">" ++
    jsOr (cfgGet "buttonText" c) "Get Started" ++ "</a></div>"
  else
    "<div style=\"padding: 40px; text-align: center; background: #f5f5f5;\">Block: " ++
    block.type ++ "</div>"

/-! ### `BlockCanvas.renderBlockPreview`: the canvas React renderer

One definition per `switch` branch; static inline styles are elided, while
every `config` read, every default, every conditional and the date call of
the blog branch are kept.  `Except` carries the JavaScript exceptions the
branch can raise. -/

def previewHero (c : List (String × Json)) : Except String String := do
  let title ← jsxText (some (jsOrElse (cfgGet "title" c)
    (jsOrElse (cfgGet "heading" c) (.str "Welcome to Our Store"))))
  let subtitle ← jsxText (some (jsOrElse (cfgGet "subtitle" c)
    (jsOrElse (cfgGet "subheading" c) (.str "Discover amazing products"))))
  let button ←
    if truthy (cfgGet "buttonText" c) then do
      let bt ← jsxText (cfgGet "buttonText" c)
      pure ("<button>" ++ bt ++ "</button>")
    else pure ""
  .ok ("<div class=\"preview-hero\" style=\"background: " ++
    jsOr (cfgGet "backgroundColor" c) "#f6f6f7" ++
    "; text-align: " ++ jsOr (cfgGet "alignment" c) "center" ++
    "; background-image: " ++
    (if truthy (cfgGet "backgroundImage" c) then
      "url(" ++ jsStringOpt (cfgGet "backgroundImage" c) ++ ")"
    else "linear-gradient(135deg, #667eea 0%, #764ba2 100%)") ++
    "; color: " ++ jsOr (cfgGet "textColor" c) "#fff" ++
    "\"><h3>" ++ title ++ "</h3><p>" ++ subtitle ++ "</p>" ++ button ++ "</div>")

def previewText (c : List (String × Json)) : Except String String := do
  let heading ← jsxText (some (jsOrElse (cfgGet "heading" c) (.str "Heading")))
  .ok ("<div class=\"preview-text\"><h4>" ++ heading ++ "</h4><div>" ++
    jsOr (cfgGet "content" c) "<p>Text content...</p>" ++ "</div></div>")

def previewImage (c : List (String × Json)) : Except String String := do
  let caption ←
    if truthy (cfgGet "caption" c) then do
      let cap ← jsxText (cfgGet "caption" c)
      pure ("<p class=\"caption\">" ++ cap ++ "</p>")
    else pure ""
  .ok ("<div class=\"preview-image\"><img src=\"" ++
    jsOr (cfgGet "src" c) "/placeholder.jpg" ++ "\" alt=\"" ++
    jsOr (cfgGet "alt" c) "Image" ++ "\" />" ++ caption ++ "</div>")

def previewGallery (c : List (String × Json)) : Except String String := do
  let items ← jsSliceOpt (cfgGet "images" c) 3
  let imgs ←
    match items with
    | none => pure ""
    | some xs => do
      let parts ← xs.mapM (fun img => do
        let s ← jsField (some img) "src"
        let a ← jsField (some img) "alt"
        pure ("<div class=\"gallery-item\"><img src=\"" ++ jsxAttr s ++
          "\" alt=\"" ++ jsxAttr a ++ "\" /></div>"))
      pure (String.join parts)
  let more :=
    match cfgGet "images" c with
    | some (.arr xs) =>
      if xs.length > 3 then
        "<p class=\"gallery-more\">+" ++ String.mk (natDigits (xs.length - 3)) ++ " more</p>"
      else ""
    | _ => ""
  .ok ("<div class=\"preview-gallery\"><div class=\"gallery-grid\">" ++ imgs ++
    "</div>" ++ more ++ "</div>")

def previewProductGrid (c : List (String × Json)) : Except String String := do
  let heading ← jsxText (some (jsOrElse (cfgGet "heading" c) (.str "Featured Products")))
  .ok ("<div class=\"preview-product-grid\"><h4>" ++ heading ++ "</h4><div>" ++
    "<p>Product Name 1</p><p>39.99</p><button>Add to Cart</button>" ++
    "<p>Product Name 2</p><p>49.99</p><button>Add to Cart</button>" ++
    "<p>Product Name 3</p><p>59.99</p><button>Add to Cart</button>" ++
    "<p>Product Name 4</p><p>69.99</p><button>Add to Cart</button></div></div>")

def previewCarousel (c : List (String × Json)) : Except String String := do
  let heading ← jsxText (some (jsOrElse (cfgGet "heading" c) (.str "Best Sellers")))
  .ok ("<div class=\"preview-products-carousel\"><h4>" ++ heading ++ "</h4><div>" ++
    "<p>Product Name 1</p><p>39.99</p>" ++
    "<p>Product Name 2</p><p>49.99</p>" ++
    "<p>Product Name 3</p><p>59.99</p>" ++
    "<p>Product Name 4</p><p>69.99</p></div></div>")

def previewEmail (c : List (String × Json)) : Except String String := do
  let heading ← jsxText (some (jsOrElse (cfgGet "heading" c) (.str "Join Our Newsletter")))
  let subheading ← jsxText (some (jsOrElse (cfgGet "subheading" c)
    (.str "Get exclusive deals and updates")))
  let buttonText ← jsxText (some (jsOrElse (cfgGet "buttonText" c) (.str "Subscribe")))
  .ok ("<div class=\"preview-email\"><h3>" ++ heading ++ "</h3><p>" ++ subheading ++
    "</p><input type=\"email\" placeholder=\"Enter your email\" /><button>" ++
    buttonText ++ "</button></div>")

def previewTextImage (c : List (String × Json)) : Except String String := do
  let heading ← jsxText (some (jsOrElse (cfgGet "heading" c) (.str "Our Story")))
  let sub ← jsSubstringOpt (cfgGet "text" c) 200
  let txt ← jsxText (some (jsOrElse (sub.map Json.str)
    (.str ("Tell your brand story with beautiful text and images. This section is " ++
      "perfect for sharing your company values, mission, or product details."))))
  let button ←
    if truthy (cfgGet "buttonText" c) then do
      let bt ← jsxText (cfgGet "buttonText" c)
      pure ("<button>" ++ bt ++ "</button>")
    else pure ""
  .ok ("<div class=\"preview-text-image\" data-order=\"" ++
    (if jsEqStr (cfgGet "imagePosition" c) "right" then "image-right" else "image-left") ++
    "\"><h4>" ++ heading ++ "</h4><p>" ++ txt ++ "</p>" ++ button ++ "</div>")

def previewFaq (c : List (String × Json)) : Except String String := do
  let heading ← jsxText (some (jsOrElse (cfgGet "heading" c)
    (.str "Frequently Asked Questions")))
  let items ← jsSliceVal (jsOrElse (cfgGet "items" c) (.arr [
    .obj [("question", .str "What is your return policy?"),
          ("answer", .str "We offer 30-day returns")],
    .obj [("question", .str "How long does shipping take?"),
          ("answer", .str "3-5 business days")],
    .obj [("question", .str "Do you ship internationally?"),
          ("answer", .str "Yes, worldwide shipping available")]])) 5
  let parts ← items.mapM (fun item => do
    let q ← jsField (some item) "question"
    let a ← jsField (some item) "answer"
    let qs ← jsxText q
    let ans ← jsxText a
    pure ("<div><strong>" ++ qs ++ "</strong><p>" ++ ans ++ "</p></div>"))
  .ok ("<div class=\"preview-faq\"><h4>" ++ heading ++ "</h4>" ++
    String.join parts ++ "</div>")

def previewBlog (now : String) (c : List (String × Json)) : Except String String := do
  let heading ← jsxText (some (jsOrElse (cfgGet "heading" c)
    (.str "Latest from Our Blog")))
  .ok ("<div class=\"preview-blog\"><h4>" ++ heading ++ "</h4>" ++
    "<p>" ++ now ++ "</p><h5>Blog Post Title 1</h5>" ++
    "<p>A brief excerpt from the blog post to give readers a preview of the content...</p>" ++
    "<p>" ++ now ++ "</p><h5>Blog Post Title 2</h5>" ++
    "<p>A brief excerpt from the blog post to give readers a preview of the content...</p>" ++
    "<p>" ++ now ++ "</p><h5>Blog Post Title 3</h5>" ++
    "<p>A brief excerpt from the blog post to give readers a preview of the content...</p>" ++
    "</div>")

def previewFeatures (c : List (String × Json)) : Except String String := do
  let heading ← jsxText (some (jsOrElse (cfgGet "heading" c) (.str "Why Choose Us")))
  let items ← jsSliceVal (jsOrElse (cfgGet "items" c) (.arr [
    .obj [("icon", .str "🚚"), ("heading", .str "Free Shipping"),
          ("text", .str "On orders over €50")],
    .obj [("icon", .str "🔒"), ("heading", .str "Secure Payment"),
          ("text", .str "100% secure transactions")],
    .obj [("icon", .str "↩️"), ("heading", .str "Easy Returns"),
          ("text", .str "30-day return policy")]])) 4
  let parts ← items.mapM (fun item => do
    let icon ← jsField (some item) "icon"
    let ih ← jsField (some item) "heading"
    let it2 ← jsField (some item) "title"
    let itx ← jsField (some item) "text"
    let idesc ← jsField (some item) "description"
    let icons ← jsxText icon
    let hs ← jsxText (if truthy ih then ih else it2)
    let ts ← jsxText (if truthy itx then itx else idesc)
    pure ("<div>" ++ icons ++ "<h5>" ++ hs ++ "</h5><p>" ++ ts ++ "</p></div>"))
  .ok ("<div class=\"preview-features\"><h4>" ++ heading ++ "</h4>" ++
    String.join parts ++ "</div>")

def previewTestimonials (c : List (String × Json)) : Except String String := do
  let heading ← jsxText (some (jsOrElse (cfgGet "heading" c)
    (.str "What Our Customers Say")))
  let items ← jsSliceVal (jsOrElse (cfgGet "items" c) (.arr [
    .obj [("name", .str "Sarah Johnson"),
          ("text", .str "Amazing product! Highly recommend."),
          ("author", .str "Sarah Johnson")],
    .obj [("name", .str "Mike Chen"),
          ("text", .str "Great quality and fast shipping."),
          ("author", .str "Mike Chen")]])) 3
  let parts ← items.mapM (fun item => do
    let t ← jsField (some item) "text"
    let ts ← jsxText t
    let nm ← jsField (some item) "name"
    let au ← jsField (some item) "author"
    let initial ← jsUpperFirst (jsOrElse nm (jsOrElse au (.str "User")))
    let disp ← jsxText (some (jsOrElse nm (jsOrElse au (.str "Customer"))))
    pure ("<div>⭐⭐⭐⭐⭐<p>\"" ++ ts ++ "\"</p><div>" ++ initial ++ "</div><p>" ++
      disp ++ "</p><p>Verified Buyer</p></div>"))
  .ok ("<div class=\"preview-testimonials\"><h4>" ++ heading ++ "</h4>" ++
    String.join parts ++ "</div>")

def previewCta (c : List (String × Json)) : Except String String := do
  let heading ← jsxText (some (jsOrElse (cfgGet "heading" c)
    (.str "Ready to Get Started?")))
  let txt ← jsxText (some (jsOrElse (cfgGet "text" c)
    (.str "Join thousands of satisfied customers today")))
  let buttons ← jsMapVal (jsOrElse (cfgGet "buttons" c) (.arr [
    .obj [("text", .str "Get Started")], .obj [("text", .str "Learn More")]]))
  let parts ← buttons.mapM (fun button => do
    let bt ← jsField (some button) "text"
    let bts ← jsxText bt
    pure ("<button>" ++ bts ++ "</button>"))
  .ok ("<div class=\"preview-cta\"><h3>" ++ heading ++ "</h3><p>" ++ txt ++ "</p>" ++
    String.join parts ++ "</div>")

def previewCollectionList (c : List (String × Json)) : Except String String := do
  let heading ← jsxText (some (jsOrElse (cfgGet "heading" c) (.str "Collections")))
  .ok ("<div class=\"preview-product-grid\"><h4>" ++ heading ++
    "</h4><p>Collection 1</p><p>Collection 2</p><p>Collection 3</p></div>")

def previewCallToAction (c : List (String × Json)) : Except String String := do
  let title ← jsxText (some (jsOrElse (cfgGet "title" c) (.str "CTA Title")))
  let description ← jsxText (some (jsOrElse (cfgGet "description" c) (.str "Description")))
  let buttonText ← jsxText (some (jsOrElse (cfgGet "buttonText" c) (.str "Button")))
  .ok ("<div class=\"preview-cta\"><h3>" ++ title ++ "</h3><p>" ++ description ++
    "</p><button>" ++ buttonText ++ "</button></div>")

def previewTwoColumn (c : List (String × Json)) : Except String String := do
  let title ← jsxText (some (jsOrElse (cfgGet "title" c) (.str "Section Title")))
  let description ← jsxText (some (jsOrElse (cfgGet "description" c)
    (.str "Description...")))
  .ok ("<div class=\"preview-two-column\"><h4>" ++ title ++ "</h4><p>" ++
    description ++ "</p></div>")

def previewHeader (c : List (String × Json)) : Except String String := do
  let items ← jsSliceOpt (cfgGet "menuItems" c) 4
  let nav ←
    match items with
    | none => pure ""
    | some xs => do
      let parts ← xs.mapM (fun item => do
        let l ← jsField (some item) "label"
        let ls ← jsxText l
        pure ("<span>" ++ ls ++ "</span>"))
      pure (String.join parts)
  .ok ("<div class=\"preview-header\"><div>Logo</div><nav>" ++ nav ++ "</nav></div>")

def previewFooter : Except String String :=
  .ok "<div class=\"preview-footer\"><div>About</div><div>Links</div><div>Contact</div></div>"

/-- `BlockCanvas.renderBlockPreview`: dispatch on `block.type`; the `now`
argument is the value of `new Date().toLocaleDateString()` read by the
blog branch. -/
def renderBlockPreview (now : String) (block : Block) : Except String String :=
  let c := block.config
  if block.type = "hero" then previewHero c
  else if block.type = "text" then previewText c
  else if block.type = "image" then previewImage c
  else if block.type = "gallery" then previewGallery c
  else if block.type = "product-grid" then previewProductGrid c
  else if block.type = "products-grid" then previewProductGrid c
  else if block.type = "products-carousel" then previewCarousel c
  else if block.type = "email-signup" then previewEmail c
  else if block.type = "email-popup" then previewEmail c
  else if block.type = "text-image" then previewTextImage c
  else if block.type = "text-image-multi" then previewTextImage c
  else if block.type = "faq" then previewFaq c
  else if block.type = "blog-grid" then previewBlog now c
  else if block.type = "blog-featured" then previewBlog now c
  else if block.type = "features" then previewFeatures c
  else if block.type = "testimonials" then previewTestimonials c
  else if block.type = "cta" then previewCta c
  else if block.type = "collection-list" then previewCollectionList c
  else if block.type = "call-to-action" then previewCallToAction c
  else if block.type = "section-two-column" then previewTwoColumn c
  else if block.type = "header" then previewHeader c
  else if block.type = "footer" then previewFooter
  else .ok ("<div class=\"preview-default\"><p>" ++ block.type ++ " block</p></div>")

/-- Does `pat` occur as a contiguous run in `l`? -/
def startsWithSeg : List Char → List Char → Bool
| [], _ => true
| _ :: _, [] => false
| p :: ps, c :: cs => p = c && startsWithSeg ps cs

/-- Substring search (used to detect leaked `undefined` text). -/
def containsSeg (pat : List Char) : List Char → Bool
| [] => startsWithSeg pat []
| c :: cs => startsWithSeg pat (c :: cs) || containsSeg pat cs

/-- Does `pat` occur as a substring of `s`? -/
def strContains (s pat : String) : Bool := containsSeg pat.data s.data

/-- Did a render succeed with non-empty output that does not leak the
literal text `undefined`? -/
def okNoUndefined : Except String String → Bool
| .ok s => !(s = "") && !(strContains s "undefined")
| .error _ => false

/-- The block types `renderBlock` renders with a dedicated branch. -/
def renderBlockKnownTypes : List String := ["hero", "text", "image", "call-to-action"]

/-- The block types `renderBlockPreview` renders with a dedicated branch. -/
def previewKnownTypes : List String :=
  ["hero", "text", "image", "gallery", "product-grid", "products-grid",
   "products-carousel", "email-signup", "email-popup", "text-image",
   "text-image-multi", "faq", "blog-grid", "blog-featured", "features",
   "testimonials", "cta", "collection-list", "call-to-action",
   "section-two-column", "header", "footer"]

/-! ### Lookup behaviour of the object spread -/

theorem cfgGet_append (l1 l2 : List (String × Json)) (k : String) :
    cfgGet k (l1 ++ l2) =
      match cfgGet k l1 with
      | some v => some v
      | none => cfgGet k l2 := by
  induction l1 with
  | nil => rw [List.nil_append]; rfl
  | cons kv l1 ih =>
    obtain ⟨k2, v⟩ := kv
    rw [List.cons_append, cfgGet, cfgGet]
    by_cases hk : k2 = k
    · rw [if_pos hk, if_pos hk]
    · rw [if_neg hk, if_neg hk, ih]

theorem cfgGet_mapped (base patch : List (String × Json)) (k : String) :
    cfgGet k (base.map (fun kv => match cfgGet kv.1 patch with
        | some w => (kv.1, w)
        | none => kv)) =
      match cfgGet k base with
      | none => none
      | some v =>
        some (match cfgGet k patch with
          | some w => w
          | none => v) := by
  induction base with
  | nil => rfl
  | cons kv base ih =>
    obtain ⟨k2, v2⟩ := kv
    rw [List.map_cons]
    by_cases hk : k2 = k
    · subst hk
      cases hcp : cfgGet k2 patch with
      | none =>
        dsimp only
        rw [cfgGet, if_pos rfl, cfgGet, if_pos rfl]
      | some w =>
        dsimp only
        rw [cfgGet, if_pos rfl, cfgGet, if_pos rfl]
    · cases hcp : cfgGet k2 patch with
      | none =>
        dsimp only
        rw [cfgGet, if_neg hk, cfgGet, if_neg hk, ih]
      | some w =>
        dsimp only
        rw [cfgGet, if_neg hk, cfgGet, if_neg hk, ih]

theorem cfgGet_filter_of_not_base (base patch : List (String × Json)) (k : String)
    (hk : cfgGet k base = none) :
    cfgGet k (patch.filter (fun kv => (cfgGet kv.1 base).isNone)) = cfgGet k patch := by
  induction patch with
  | nil => rfl
  | cons kv patch ih =>
    obtain ⟨k2, v2⟩ := kv
    by_cases hk2 : k2 = k
    · subst hk2
      rw [List.filter_cons, if_pos (by simp [hk])]
      rw [cfgGet, if_pos rfl, cfgGet, if_pos rfl]
    · rw [List.filter_cons]
      by_cases hcond : (cfgGet k2 base).isNone = true
      · rw [if_pos (by simpa using hcond)]
        rw [cfgGet, if_neg hk2, cfgGet, if_neg hk2, ih]
      · rw [if_neg (by simpa using hcond)]
        rw [ih, cfgGet, if_neg hk2]

/-- The object-spread lookup law: a key takes its value from `patch` when
present there, otherwise from `base`. -/
theorem cfgGet_mergeConfig (base patch : List (String × Json)) (k : String) :
    cfgGet k (mergeConfig base patch) =
      match cfgGet k patch with
      | some w => some w
      | none => cfgGet k base := by
  rw [mergeConfig, cfgGet_append, cfgGet_mapped]
  cases hb : cfgGet k base with
  | some v =>
    dsimp only
    cases hp : cfgGet k patch <;> rfl
  | none =>
    dsimp only
    rw [cfgGet_filter_of_not_base base patch k hb]
    cases hp : cfgGet k patch <;> rfl

/-! ### Id uniqueness under editing sequences -/

theorem insertAt_perm (n : Nat) (b : Block) (l : List Block) :
    List.Perm (insertAt n b l) (b :: l) := by
  induction l generalizing n with
  | nil => cases n <;> exact List.Perm.refl _
  | cons x xs ih =>
    cases n with
    | zero => exact List.Perm.refl _
    | succ n =>
      have h1 : insertAt (n + 1) b (x :: xs) = x :: insertAt n b xs := rfl
      rw [h1]
      exact (List.Perm.cons x (ih n)).trans (List.Perm.swap b x xs)

theorem runBlockOps_invariant (ops : List BlockOp) :
    ∀ bs : List Block, (bs.map Block.id).Nodup → (opGenIds ops).Nodup →
    (∀ g ∈ opGenIds ops, ∀ b ∈ bs, b.id ≠ g) →
    ((runBlockOps bs ops).map Block.id).Nodup ∧
    (∀ b ∈ runBlockOps bs ops, b.id ∈ bs.map Block.id ∨ b.id ∈ opGenIds ops) := by
  induction ops with
  | nil =>
    intro bs h1 _ _
    exact ⟨h1, fun b hb => .inl (List.mem_map_of_mem _ hb)⟩
  | cons op ops ih =>
    intro bs h1 h2 h3
    cases op with
    | add g ty cfg =>
      rw [opGenIds] at h2 h3
      rw [runBlockOps]
      have hg : ∀ b ∈ bs, b.id ≠ g := h3 g (List.mem_cons_self _ _)
      have happly : applyBlockOp bs (.add g ty cfg) =
          bs ++ [{ id := g, type := ty, config := cfg }] := rfl
      rw [happly]
      have hids : ((bs ++ [({ id := g, type := ty, config := cfg } : Block)]).map Block.id).Nodup := by
        rw [List.map_append, List.nodup_append]
        refine ⟨h1, List.nodup_singleton _, ?_⟩
        intro a ha hb2
        simp only [List.map_cons, List.map_nil, List.mem_singleton] at hb2
        obtain ⟨b, hbmem, hbid⟩ := List.mem_map.mp ha
        subst hb2
        exact hg b hbmem hbid
      have hdisj : ∀ g2 ∈ opGenIds ops,
          ∀ b ∈ bs ++ [({ id := g, type := ty, config := cfg } : Block)], b.id ≠ g2 := by
        intro g2 hg2 b hb2
        rcases List.mem_append.mp hb2 with hmem | hmem
        · exact h3 g2 (List.mem_cons_of_mem _ hg2) b hmem
        · simp only [List.mem_singleton] at hmem
          subst hmem
          intro hcontra
          have hgg : g = g2 := hcontra
          exact (List.nodup_cons.mp h2).1 (hgg ▸ hg2)
      obtain ⟨ha, hb⟩ := ih _ hids (List.nodup_cons.mp h2).2 hdisj
      refine ⟨ha, fun b hbm => ?_⟩
      rcases hb b hbm with hmem | hmem
      · rw [List.map_append] at hmem
        rcases List.mem_append.mp hmem with hm | hm
        · exact .inl hm
        · simp only [List.map_cons, List.map_nil, List.mem_singleton] at hm
          exact .inr (by rw [opGenIds]; exact hm ▸ List.mem_cons_self _ _)
      · exact .inr (by rw [opGenIds]; exact List.mem_cons_of_mem _ hmem)
    | del blockId =>
      rw [opGenIds] at h2 h3
      rw [runBlockOps]
      have happly : applyBlockOp bs (.del blockId) =
          bs.filter (fun b => b.id ≠ blockId) := rfl
      rw [happly]
      have hids : ((bs.filter (fun b => b.id ≠ blockId)).map Block.id).Nodup :=
        List.Nodup.sublist (List.Sublist.map _ (List.filter_sublist bs)) h1
      have hdisj : ∀ g2 ∈ opGenIds ops,
          ∀ b ∈ bs.filter (fun b => b.id ≠ blockId), b.id ≠ g2 :=
        fun g2 hg2 b hb2 => h3 g2 hg2 b (List.mem_of_mem_filter hb2)
      obtain ⟨ha, hb⟩ := ih _ hids h2 hdisj
      refine ⟨ha, fun b hbm => ?_⟩
      rcases hb b hbm with hmem | hmem
      · obtain ⟨b2, hb2, hbid⟩ := List.mem_map.mp hmem
        exact .inl (List.mem_map.mpr ⟨b2, List.mem_of_mem_filter hb2, hbid⟩)
      · exact .inr (by rw [opGenIds]; exact hmem)
    | dup g blockId =>
      rw [opGenIds] at h2 h3
      rw [runBlockOps]
      have hg : ∀ b ∈ bs, b.id ≠ g := h3 g (List.mem_cons_self _ _)
      cases hf : bs.findIdx? (fun b => b.id = blockId) with
      | none =>
        have happly : applyBlockOp bs (.dup g blockId) = bs := by
          simp only [applyBlockOp, hf]
        rw [happly]
        have hdisj : ∀ g2 ∈ opGenIds ops, ∀ b ∈ bs, b.id ≠ g2 :=
          fun g2 hg2 b hb2 => h3 g2 (List.mem_cons_of_mem _ hg2) b hb2
        obtain ⟨ha, hb⟩ := ih _ h1 (List.nodup_cons.mp h2).2 hdisj
        refine ⟨ha, fun b hbm => ?_⟩
        rcases hb b hbm with hmem | hmem
        · exact .inl hmem
        · exact .inr (by rw [opGenIds]; exact List.mem_cons_of_mem _ hmem)
      | some index =>
        have happly : applyBlockOp bs (.dup g blockId) =
            insertAt (index + 1)
              { bs.getD index { id := "", type := "", config := [] } with id := g } bs := by
          simp only [applyBlockOp, hf]
        rw [happly]
        have hperm := insertAt_perm (index + 1)
          { bs.getD index { id := "", type := "", config := [] } with id := g } bs
        have hpermids := hperm.map Block.id
        have hcons : ((({ bs.getD index { id := "", type := "", config := [] } with
            id := g } : Block) :: bs).map Block.id).Nodup := by
          rw [List.map_cons]
          exact List.nodup_cons.mpr
            ⟨fun hmem => by
              obtain ⟨b, hbmem, hbid⟩ := List.mem_map.mp hmem
              exact hg b hbmem hbid, h1⟩
        have hids := (List.Perm.nodup_iff hpermids).mpr hcons
        have hdisj : ∀ g2 ∈ opGenIds ops, ∀ b2 ∈ insertAt (index + 1)
            { bs.getD index { id := "", type := "", config := [] } with id := g } bs,
            b2.id ≠ g2 := by
          intro g2 hg2 b2 hb2
          rcases List.mem_cons.mp (hperm.mem_iff.mp hb2) with hm | hm
          · subst hm
            intro hcontra
            have hgg : g = g2 := hcontra
            exact (List.nodup_cons.mp h2).1 (hgg ▸ hg2)
          · exact h3 g2 (List.mem_cons_of_mem _ hg2) b2 hm
        obtain ⟨ha, hb⟩ := ih _ hids (List.nodup_cons.mp h2).2 hdisj
        refine ⟨ha, fun b hbm => ?_⟩
        rcases hb b hbm with hmem | hmem
        · rcases List.mem_cons.mp ((List.Perm.mem_iff hpermids).mp hmem) with hm | hm
          · exact .inr (by rw [opGenIds]; exact hm ▸ List.mem_cons_self _ _)
          · exact .inl hm
        · exact .inr (by rw [opGenIds]; exact List.mem_cons_of_mem _ hmem)

/-! ## Claims -/

/-- C1 counterexample: two `addBlock` calls inside the same millisecond
generate the same `block-${Date.now()}` id, so the resulting block list has
a duplicate id. -/
theorem addBlock_same_millisecond_duplicate_ids :
    ¬ ((runBlockOps []
      [.add (genIdVisual 5) "text" [], .add (genIdVisual 5) "text" []]).map
        Block.id).Nodup := by
  have hg : genIdVisual 5 = "block-5" := by
    rw [genIdVisual, natDigits]
    rfl
  rw [hg]
  decide

/-- C1 (amended): any sequence of `addBlock` / `deleteBlock` /
`duplicateBlock` calls from the empty list yields pairwise-unique block ids,
provided the freshly generated id strings of the sequence are themselves
pairwise distinct (which the time-based id scheme does not guarantee inside
a single millisecond). -/
theorem blockOps_distinct_gen_ids_unique (ops : List BlockOp)
    (hgens : (opGenIds ops).Nodup) :
    ((runBlockOps [] ops).map Block.id).Nodup :=
  (runBlockOps_invariant ops [] (by simp) hgens (by simp)).1

/-- C1 witness: a concrete add / duplicate / delete run with distinct
generated ids ends with pairwise-unique block ids. -/
theorem blockOps_distinct_gen_ids_unique_witness :
    (opGenIds [.add "block-1" "text" [], .dup "block-2" "block-1",
      .del "block-1"]).Nodup ∧
    ((runBlockOps [] [.add "block-1" "text" [], .dup "block-2" "block-1",
      .del "block-1"]).map Block.id).Nodup :=
  ⟨by decide, blockOps_distinct_gen_ids_unique _ (by decide)⟩

/-- C2 counterexample: `"[ ]"` is a well-formed serialized (empty) block
list, but `JSON.stringify(JSON.parse("[ ]"))` is `"[]"`, so the round trip
is not the character-for-character identity on all well-formed inputs. -/
theorem serialize_deserialize_whitespace_counterexample :
    (∃ bs : List Block, parseJson "[ ]" = some (blocksJson bs)) ∧
    serializeJson (deserialize "[ ]") ≠ "[ ]" := by
  constructor
  · exact ⟨[], rfl⟩
  · have h1 : deserialize "[ ]" = Json.arr [] := rfl
    rw [h1, serializeJson]
    rw [show printChars (Json.arr []) = ['[', ']'] by simp only [printChars]]
    decide

/-- C2 (amended): the round-trip law `serialize(deserialize(x)) = x` holds
for every canonically-formatted serialized block list, i.e. for every `x`
produced by `serialize`: parsing a serialized block list recovers its JSON
value exactly, and re-serializing is the character-for-character identity. -/
theorem serialize_deserialize_roundtrip (bs : List Block) :
    deserialize (serialize bs) = blocksJson bs ∧
    serializeJson (deserialize (serialize bs)) = serialize bs := by
  have h1 : deserialize (serialize bs) = blocksJson bs := by
    rw [serialize, deserialize, parseJson_serializeJson]
  exact ⟨h1, by rw [h1, serialize]⟩

/-- C10: a malformed or absent `content` value loads as the empty block
list: `JSON.parse(content || '[]')` wrapped in the defensive catch never
fails the page load; in particular `deserialize("not json")` yields `[]`. -/
theorem loadBlocks_defensive_spec :
    loadBlocks none = Json.arr [] ∧
    loadBlocks (some "") = Json.arr [] ∧
    (∀ s : String, parseJson s = none → loadBlocks (some s) = Json.arr []) ∧
    loadBlocks (some "not json") = Json.arr [] ∧
    deserialize "not json" = Json.arr [] := by
  refine ⟨rfl, rfl, ?_, rfl, rfl⟩
  intro s hs
  by_cases he : s = ""
  · subst he
    rfl
  · rw [loadBlocks]
    rw [if_neg he, deserialize, hs]

/-- C10 witness: the defensive load at the concrete malformed input. -/
theorem loadBlocks_defensive_spec_witness :
    parseJson "not json" = none ∧ loadBlocks (some "not json") = Json.arr [] :=
  ⟨rfl, loadBlocks_defensive_spec.2.2.1 "not json" rfl⟩

theorem map_untouched (l : List Block) (blockId : String) (f : Block → Block)
    (h : ∀ b ∈ l, b.id ≠ blockId) :
    l.map (fun b => if b.id = blockId then f b else b) = l := by
  induction l with
  | nil => rfl
  | cons x xs ih =>
    rw [List.map_cons, if_neg (h x (List.mem_cons_self _ _)),
      ih (fun b hb => h b (List.mem_cons_of_mem _ hb))]

/-- C6 counterexample: `PageBuilder.handleUpdateBlock` replaces the whole
config, so a key of the targeted block that is not named in the patch loses
its previous value instead of keeping it. -/
theorem handleUpdateBlock_drops_unmentioned_key :
    cfgGet "x" (((handleUpdateBlock
      { blocks := [{ id := "a", type := "text", config := [("x", Json.str "1")] }],
        selectedBlockId := none } "a" [("y", Json.str "2")]).blocks.headD
      { id := "", type := "", config := [] }).config) = none ∧
    cfgGet "x" ([("x", Json.str "1")] : List (String × Json)) = some (Json.str "1") :=
  ⟨rfl, rfl⟩

/-- C6 (amended): `VisualPageEditor.updateBlock` merges the patch, so only
the keys named in the patch change on the targeted block and everything
else (other blocks, list order, selection, unmentioned keys) is unchanged;
`PageBuilder.handleUpdateBlock` also leaves other blocks, order and
selection unchanged, but replaces the targeted block's whole config with
the patch, so its unmentioned keys survive only if the caller includes them
(as its `BlockEditor` caller does). -/
theorem updateBlock_frame_spec (s : EditorState) (blockId : String)
    (patch : List (String × Json)) (i : Nat) :
    (updateBlock s blockId patch).selectedBlockId = s.selectedBlockId ∧
    (updateBlock s blockId patch).blocks.length = s.blocks.length ∧
    (∀ b, s.blocks[i]? = some b → b.id ≠ blockId →
      (updateBlock s blockId patch).blocks[i]? = some b) ∧
    (∀ b, s.blocks[i]? = some b → b.id = blockId →
      ∃ b2, (updateBlock s blockId patch).blocks[i]? = some b2 ∧
        b2.id = b.id ∧ b2.type = b.type ∧
        (∀ k, cfgGet k patch = none → cfgGet k b2.config = cfgGet k b.config) ∧
        (∀ k w, cfgGet k patch = some w → cfgGet k b2.config = some w)) ∧
    (handleUpdateBlock s blockId patch).selectedBlockId = s.selectedBlockId ∧
    (handleUpdateBlock s blockId patch).blocks.length = s.blocks.length ∧
    (∀ b, s.blocks[i]? = some b → b.id ≠ blockId →
      (handleUpdateBlock s blockId patch).blocks[i]? = some b) ∧
    (∀ b, s.blocks[i]? = some b → b.id = blockId →
      (handleUpdateBlock s blockId patch).blocks[i]? =
        some { id := b.id, type := b.type, config := patch }) := by
  refine ⟨rfl, by simp [updateBlock], ?_, ?_, rfl, by simp [handleUpdateBlock], ?_, ?_⟩
  · intro b hb hne
    rw [updateBlock]
    dsimp only
    rw [List.getElem?_map, hb]
    dsimp only [Option.map]
    rw [if_neg hne]
  · intro b hb heq
    refine ⟨{ b with config := mergeConfig b.config patch }, ?_, rfl, rfl, ?_, ?_⟩
    · rw [updateBlock]
      dsimp only
      rw [List.getElem?_map, hb]
      dsimp only [Option.map]
      rw [if_pos heq]
    · intro k hk
      rw [cfgGet_mergeConfig, hk]
    · intro k w hk
      rw [cfgGet_mergeConfig, hk]
  · intro b hb hne
    rw [handleUpdateBlock]
    dsimp only
    rw [List.getElem?_map, hb]
    dsimp only [Option.map]
    rw [if_neg hne]
  · intro b hb heq
    rw [handleUpdateBlock]
    dsimp only
    rw [List.getElem?_map, hb]
    dsimp only [Option.map]
    rw [if_pos heq]

/-- C6 witness: the frame conditions at a concrete two-block state. -/
theorem updateBlock_frame_spec_witness :
    (updateBlock
      { blocks := [{ id := "a", type := "text", config := [("x", Json.str "1")] },
                   { id := "b", type := "hero", config := [] }],
        selectedBlockId := some "b" } "a" [("y", Json.str "2")]).blocks[1]? =
      some { id := "b", type := "hero", config := [] } := by
  have h := (updateBlock_frame_spec
    { blocks := [{ id := "a", type := "text", config := [("x", Json.str "1")] },
                 { id := "b", type := "hero", config := [] }],
      selectedBlockId := some "b" } "a" [("y", Json.str "2")] 1).2.2.1
    { id := "b", type := "hero", config := [] } rfl (by decide)
  exact h

/-- C7 counterexample: `VisualPageEditor.deleteBlock` with an id absent
from the block list is not a no-op on the editor state: it unconditionally
clears the selection. -/
theorem deleteBlock_absent_id_clears_selection :
    deleteBlock
      { blocks := [{ id := "a", type := "text", config := [] }],
        selectedBlockId := some "a" } "zzz" ≠
    { blocks := [{ id := "a", type := "text", config := [] }],
      selectedBlockId := some "a" } := by
  intro hcontra
  have h2 := congrArg EditorState.selectedBlockId hcontra
  simp [deleteBlock] at h2

/-- C7 (amended): with an id absent from the block list,
`updateBlockConfig`, `moveBlock` and `duplicateBlock` are complete no-ops
on the editor state, and no operation errors; `deleteBlock` leaves the
block list unchanged but `VisualPageEditor`'s version unconditionally
clears the selection, while `PageBuilder.handleDeleteBlock` is a complete
no-op whenever the selection does not already point at the absent id. -/
theorem absent_id_mutations_spec (s : EditorState) (blockId : String)
    (h : ∀ b ∈ s.blocks, b.id ≠ blockId) (cfg : List (String × Json))
    (genId : String) (d : Direction) :
    updateBlock s blockId cfg = s ∧
    handleUpdateBlock s blockId cfg = s ∧
    moveBlock s blockId d = s ∧
    handleDuplicateBlock s genId blockId = s ∧
    (deleteBlock s blockId).blocks = s.blocks ∧
    (deleteBlock s blockId).selectedBlockId = none ∧
    (s.selectedBlockId ≠ some blockId → handleDeleteBlock s blockId = s) := by
  have hfalse : ∀ b ∈ s.blocks, (fun b => decide (b.id = blockId)) b = false :=
    fun b hb => decide_eq_false (h b hb)
  have hnone : s.blocks.findIdx? (fun b => b.id = blockId) = none :=
    List.findIdx?_eq_none_iff.mpr hfalse
  have hfilter : s.blocks.filter (fun b => b.id ≠ blockId) = s.blocks :=
    List.filter_eq_self.mpr (fun b hb => decide_eq_true (h b hb))
  obtain ⟨blocks, sel⟩ := s
  refine ⟨?_, ?_, ?_, ?_, ?_, rfl, ?_⟩
  · rw [updateBlock]
    dsimp only
    rw [map_untouched _ _ _ h]
  · rw [handleUpdateBlock]
    dsimp only
    rw [map_untouched _ _ _ h]
  · rw [moveBlock]
    dsimp only at hnone ⊢
    rw [hnone]
  · rw [handleDuplicateBlock]
    dsimp only at hnone ⊢
    rw [hnone]
  · rw [deleteBlock]
    dsimp only at hfilter ⊢
    rw [hfilter]
  · intro hsel
    rw [handleDeleteBlock]
    dsimp only at hfilter hsel ⊢
    rw [hfilter, if_neg hsel]

/-- C7 witness: the absent-id behaviour at a concrete state. -/
theorem absent_id_mutations_spec_witness :
    updateBlock
      { blocks := [{ id := "a", type := "text", config := [] }],
        selectedBlockId := some "a" }
      "zzz" [("k", Json.str "v")] =
    { blocks := [{ id := "a", type := "text", config := [] }],
      selectedBlockId := some "a" } :=
  (absent_id_mutations_spec
    { blocks := [{ id := "a", type := "text", config := [] }],
      selectedBlockId := some "a" } "zzz"
    (by decide) [("k", Json.str "v")] "block-9" .up).1

/-- C8 counterexample: `PageBuilder.handleAddBlock` never calls
`setSelectedBlockId`, so the freshly added block does not become the
selected block. -/
theorem handleAddBlock_leaves_selection :
    (handleAddBlock { blocks := [], selectedBlockId := none } "block-5" "text"
      [("content", Json.str "hi")]).selectedBlockId ≠ some "block-5" := by
  intro h
  simp [handleAddBlock] at h

/-- C8 (amended): both add operations append the new block at the end of
the list with the freshly generated id and a copy of the given default
config; `VisualPageEditor.addBlock` makes it the selected block, while
`PageBuilder.handleAddBlock` leaves the selection unchanged.  In
particular, adding a `"text"` block with config `{content: "hi"}` to the
empty list yields a one-element list whose sole block has type `"text"`
and `config.content = "hi"`. -/
theorem addBlock_appends_spec (s : EditorState) (genId : String) (bt : BlockType)
    (blockType : String) (cfg : List (String × Json)) :
    addBlock s genId bt =
      { blocks := s.blocks ++
          [{ id := genId, type := bt.name, config := bt.default_config }],
        selectedBlockId := some genId } ∧
    handleAddBlock s genId blockType cfg =
      { blocks := s.blocks ++ [{ id := genId, type := blockType, config := cfg }],
        selectedBlockId := s.selectedBlockId } ∧
    (addBlock { blocks := [], selectedBlockId := none } genId
      { name := "text", default_config := [("content", Json.str "hi")] }).blocks =
      [{ id := genId, type := "text", config := [("content", Json.str "hi")] }] ∧
    cfgGet "content" [("content", Json.str "hi")] = some (Json.str "hi") ∧
    (addBlock { blocks := [], selectedBlockId := none } genId
      { name := "text",
        default_config := [("content", Json.str "hi")] }).selectedBlockId =
      some genId :=
  ⟨rfl, rfl, rfl, rfl, rfl⟩

theorem swapIdx_spec (l : List Block) (i j : Nat) (hi : i < l.length)
    (hj : j < l.length) (hij : i ≠ j) :
    (swapIdx l i j).length = l.length ∧
    (swapIdx l i j)[j]? = l[i]? ∧
    (swapIdx l i j)[i]? = l[j]? ∧
    ∀ p, p ≠ i → p ≠ j → (swapIdx l i j)[p]? = l[p]? := by
  refine ⟨by simp [swapIdx], ?_, ?_, ?_⟩
  · rw [swapIdx]
    rw [List.getElem?_set_self (by simpa using hj)]
    rw [List.getD_eq_getElem?_getD, List.getElem?_eq_getElem hi]
    rfl
  · rw [swapIdx]
    rw [List.getElem?_set_ne (Ne.symm hij)]
    rw [List.getElem?_set_self hi]
    rw [List.getD_eq_getElem?_getD, List.getElem?_eq_getElem hj]
    rfl
  · intro p hpi hpj
    rw [swapIdx]
    rw [List.getElem?_set_ne (Ne.symm hpj), List.getElem?_set_ne (Ne.symm hpi)]

/-- C9: `moveBlock` swaps the identified block with its immediate neighbour
in the given direction and changes nothing else (length, all other
positions and the selection are unchanged); at the list boundaries (first
block up, last block down) it is a silent no-op; and on `[a, b]`,
`moveBlock(b.id, 'up')` yields `[b, a]`. -/
theorem moveBlock_swap_spec (s : EditorState) (blockId : String) (i : Nat)
    (hfind : s.blocks.findIdx? (fun b => b.id = blockId) = some i) :
    ((1 ≤ i →
      (moveBlock s blockId .up).blocks.length = s.blocks.length ∧
      (moveBlock s blockId .up).blocks[i - 1]? = s.blocks[i]? ∧
      (moveBlock s blockId .up).blocks[i]? = s.blocks[i - 1]? ∧
      (∀ p, p ≠ i → p ≠ i - 1 →
        (moveBlock s blockId .up).blocks[p]? = s.blocks[p]?) ∧
      (moveBlock s blockId .up).selectedBlockId = s.selectedBlockId) ∧
     (i = 0 → moveBlock s blockId .up = s)) ∧
    ((i + 1 < s.blocks.length →
      (moveBlock s blockId .down).blocks.length = s.blocks.length ∧
      (moveBlock s blockId .down).blocks[i + 1]? = s.blocks[i]? ∧
      (moveBlock s blockId .down).blocks[i]? = s.blocks[i + 1]? ∧
      (∀ p, p ≠ i → p ≠ i + 1 →
        (moveBlock s blockId .down).blocks[p]? = s.blocks[p]?) ∧
      (moveBlock s blockId .down).selectedBlockId = s.selectedBlockId) ∧
     (i + 1 = s.blocks.length → moveBlock s blockId .down = s)) ∧
    moveBlock
      { blocks := [{ id := "a", type := "hero", config := [("title", Json.str "Welcome")] },
                   { id := "b", type := "text", config := [] }],
        selectedBlockId := none } "b" .up =
      { blocks := [{ id := "b", type := "text", config := [] },
                   { id := "a", type := "hero", config := [("title", Json.str "Welcome")] }],
        selectedBlockId := none } := by
  have hi : i < s.blocks.length := (List.findIdx?_eq_some_iff_findIdx_eq.mp hfind).1
  have hup : 1 ≤ i →
      moveBlock s blockId .up = { s with blocks := swapIdx s.blocks i (i - 1) } := by
    intro h1
    rw [moveBlock, hfind]
    dsimp only
    rw [if_neg (by omega)]
    rw [show ((i : Int) - 1).toNat = i - 1 by omega]
  have hdown : i + 1 < s.blocks.length →
      moveBlock s blockId .down = { s with blocks := swapIdx s.blocks i (i + 1) } := by
    intro h1
    rw [moveBlock, hfind]
    dsimp only
    rw [if_neg (by omega)]
    rw [show ((i : Int) + 1).toNat = i + 1 by omega]
  refine ⟨⟨?_, ?_⟩, ⟨?_, ?_⟩, rfl⟩
  · intro h1
    obtain ⟨hl, he1, he2, hrest⟩ :=
      swapIdx_spec s.blocks i (i - 1) hi (by omega) (by omega)
    rw [hup h1]
    exact ⟨hl, he1, he2, fun p hp1 hp2 => hrest p hp1 hp2, rfl⟩
  · intro h0
    subst h0
    rw [moveBlock, hfind]
    dsimp only
    rw [if_pos (by omega)]
  · intro h1
    obtain ⟨hl, he1, he2, hrest⟩ :=
      swapIdx_spec s.blocks i (i + 1) hi (by omega) (by omega)
    rw [hdown h1]
    exact ⟨hl, he1, he2, fun p hp1 hp2 => hrest p hp1 hp2, rfl⟩
  · intro hlast
    rw [moveBlock, hfind]
    dsimp only
    rw [if_pos (by omega)]

/-- C9 witness: the swap at the concrete two-block state. -/
theorem moveBlock_swap_spec_witness :
    (moveBlock
      { blocks := [{ id := "a", type := "hero", config := [("title", Json.str "Welcome")] },
                   { id := "b", type := "text", config := [] }],
        selectedBlockId := none } "b" .up).blocks[0]? =
      some { id := "b", type := "text", config := [] } := by
  have h := ((moveBlock_swap_spec
    { blocks := [{ id := "a", type := "hero", config := [("title", Json.str "Welcome")] },
                 { id := "b", type := "text", config := [] }],
      selectedBlockId := none } "b" 1 rfl).1.1 (by omega)).2.1
  rw [h]
  rfl

theorem append_ne_empty (a b : String) (h : a ≠ "") : a ++ b ≠ "" := by
  intro hc
  apply h
  obtain ⟨da⟩ := a
  obtain ⟨db⟩ := b
  have h2 : da ++ db = ([] : List Char) := congrArg String.data hc
  have h3 := List.append_eq_nil.mp h2
  rw [h3.1]

theorem renderBlockPreview_default (now : String) (b : Block)
    (hb : b.type ∉ previewKnownTypes) :
    renderBlockPreview now b =
      .ok ("<div class=\"preview-default\"><p>" ++ b.type ++ " block</p></div>") := by
  simp only [previewKnownTypes, List.mem_cons, List.not_mem_nil, or_false,
    not_or] at hb
  obtain ⟨h1, h2, h3, h4, h5, h6, h7, h8, h9, h10, h11, h12, h13, h14, h15,
    h16, h17, h18, h19, h20, h21, h22⟩ := hb
  rw [renderBlockPreview]
  rw [if_neg h1, if_neg h2, if_neg h3, if_neg h4, if_neg h5, if_neg h6, if_neg h7,
    if_neg h8, if_neg h9, if_neg h10, if_neg h11, if_neg h12, if_neg h13, if_neg h14,
    if_neg h15, if_neg h16, if_neg h17, if_neg h18, if_neg h19, if_neg h20,
    if_neg h21, if_neg h22]

/-- C3 counterexample: for the known type `gallery` with a non-array
`images` config value, `renderBlockPreview` throws (`.slice` on a number),
so the renderer is not total over every `(type, config)` pair. -/
theorem renderBlockPreview_gallery_throws :
    renderBlockPreview "2026-10-11"
      { id := "x", type := "gallery", config := [("images", Json.num 5)] } =
    .error "TypeError: slice is not a function" := rfl

/-- C3 (amended): `renderBlock` always returns non-empty output and, for
any type outside its known set, renders the generic placeholder containing
the raw type string; `renderBlockPreview` renders its generic placeholder
with the raw type string for any type outside its known set and never
throws there — but for some known types it can throw when an array-typed
config field holds a non-array value. -/
theorem renderer_unknown_type_fallback (now : String) (b : Block) :
    renderBlock b ≠ "" ∧
    (b.type ∉ renderBlockKnownTypes →
      renderBlock b =
        "<div style=\"padding: 40px; text-align: center; background: #f5f5f5;\">Block: " ++
        b.type ++ "</div>") ∧
    (b.type ∉ previewKnownTypes →
      renderBlockPreview now b =
        .ok ("<div class=\"preview-default\"><p>" ++ b.type ++ " block</p></div>")) := by
  refine ⟨?_, ?_, ?_⟩
  · rw [renderBlock]
    split_ifs <;> (repeat' apply append_ne_empty) <;> decide
  · intro hb
    simp only [renderBlockKnownTypes, List.mem_cons, List.not_mem_nil, or_false,
      not_or] at hb
    obtain ⟨h1, h2, h3, h4⟩ := hb
    rw [renderBlock]
    rw [if_neg h1, if_neg h2, if_neg h3, if_neg h4]
  · intro hb
    exact renderBlockPreview_default now b hb

/-- C3 witness: the fallback at a concrete unrecognized type. -/
theorem renderer_unknown_type_fallback_witness :
    renderBlock { id := "x", type := "custom-widget", config := [] } =
      "<div style=\"padding: 40px; text-align: center; background: #f5f5f5;\">Block: " ++
      "custom-widget" ++ "</div>" ∧
    renderBlockPreview "2026-10-11" { id := "x", type := "custom-widget", config := [] } =
      .ok ("<div class=\"preview-default\"><p>" ++ "custom-widget" ++ " block</p></div>") :=
  ⟨(renderer_unknown_type_fallback "2026-10-11"
      { id := "x", type := "custom-widget", config := [] }).2.1 (by decide),
   (renderer_unknown_type_fallback "2026-10-11"
      { id := "x", type := "custom-widget", config := [] }).2.2 (by decide)⟩

set_option maxRecDepth 80000 in
/-- C4 counterexample: the blog preview branch renders
`new Date().toLocaleDateString()`, so two renders of the identical
`(type, config)` pair on different dates produce different output. -/
theorem renderBlockPreview_blog_depends_on_date :
    renderBlockPreview "1/1/2026" { id := "x", type := "blog-grid", config := [] } ≠
    renderBlockPreview "2/2/2026" { id := "x", type := "blog-grid", config := [] } := by
  intro h
  have h3 : (match renderBlockPreview "1/1/2026"
      { id := "x", type := "blog-grid", config := [] } with
    | Except.ok s => strContains s "1/1/2026"
    | Except.error _ => false) = true := rfl
  rw [h] at h3
  have h4 : (match renderBlockPreview "2/2/2026"
      { id := "x", type := "blog-grid", config := [] } with
    | Except.ok s => strContains s "1/1/2026"
    | Except.error _ => false) = false := rfl
  rw [h4] at h3
  exact Bool.noConfusion h3

set_option maxHeartbeats 4000000 in
/-- C4 (amended): both renderers are functions of `(type, config)` alone —
the block id and any other state are irrelevant — and `renderBlockPreview`
is independent of the current date for every type except `blog-grid` /
`blog-featured`, whose placeholder posts embed
`new Date().toLocaleDateString()`. -/
theorem render_deterministic_spec :
    (∀ b1 b2 : Block, b1.type = b2.type → b1.config = b2.config →
      renderBlock b1 = renderBlock b2 ∧
      ∀ now, renderBlockPreview now b1 = renderBlockPreview now b2) ∧
    (∀ (now1 now2 : String) (b : Block),
      b.type ≠ "blog-grid" → b.type ≠ "blog-featured" →
      renderBlockPreview now1 b = renderBlockPreview now2 b) := by
  constructor
  · intro b1 b2 ht hc
    obtain ⟨i1, t1, c1⟩ := b1
    obtain ⟨i2, t2, c2⟩ := b2
    dsimp only at ht hc
    subst ht
    subst hc
    exact ⟨rfl, fun now => rfl⟩
  · intro now1 now2 b h1 h2
    obtain ⟨i, t, c⟩ := b
    by_cases e1 : t = "hero"
    · subst e1; show previewHero c = previewHero c; rfl
    by_cases e2 : t = "text"
    · subst e2; show previewText c = previewText c; rfl
    by_cases e3 : t = "image"
    · subst e3; show previewImage c = previewImage c; rfl
    by_cases e4 : t = "gallery"
    · subst e4; show previewGallery c = previewGallery c; rfl
    by_cases e5 : t = "product-grid"
    · subst e5; show previewProductGrid c = previewProductGrid c; rfl
    by_cases e6 : t = "products-grid"
    · subst e6; show previewProductGrid c = previewProductGrid c; rfl
    by_cases e7 : t = "products-carousel"
    · subst e7; show previewCarousel c = previewCarousel c; rfl
    by_cases e8 : t = "email-signup"
    · subst e8; show previewEmail c = previewEmail c; rfl
    by_cases e9 : t = "email-popup"
    · subst e9; show previewEmail c = previewEmail c; rfl
    by_cases e10 : t = "text-image"
    · subst e10; show previewTextImage c = previewTextImage c; rfl
    by_cases e11 : t = "text-image-multi"
    · subst e11; show previewTextImage c = previewTextImage c; rfl
    by_cases e12 : t = "faq"
    · subst e12; show previewFaq c = previewFaq c; rfl
    by_cases e13 : t = "blog-grid"
    · exact absurd e13 h1
    by_cases e14 : t = "blog-featured"
    · exact absurd e14 h2
    by_cases e15 : t = "features"
    · subst e15; show previewFeatures c = previewFeatures c; rfl
    by_cases e16 : t = "testimonials"
    · subst e16; show previewTestimonials c = previewTestimonials c; rfl
    by_cases e17 : t = "cta"
    · subst e17; show previewCta c = previewCta c; rfl
    by_cases e18 : t = "collection-list"
    · subst e18; show previewCollectionList c = previewCollectionList c; rfl
    by_cases e19 : t = "call-to-action"
    · subst e19; show previewCallToAction c = previewCallToAction c; rfl
    by_cases e20 : t = "section-two-column"
    · subst e20; show previewTwoColumn c = previewTwoColumn c; rfl
    by_cases e21 : t = "header"
    · subst e21; show previewHeader c = previewHeader c; rfl
    by_cases e22 : t = "footer"
    · subst e22; show previewFooter = previewFooter; rfl
    have hmem : ({ id := i, type := t, config := c } : Block).type ∉ previewKnownTypes := by
      simp only [previewKnownTypes, List.mem_cons, List.not_mem_nil, or_false, not_or]
      exact ⟨e1, e2, e3, e4, e5, e6, e7, e8, e9, e10, e11, e12, e13, e14, e15, e16,
        e17, e18, e19, e20, e21, e22⟩
    rw [renderBlockPreview_default now1 _ hmem, renderBlockPreview_default now2 _ hmem]

/-- C4 witness: determinism at concrete inputs. -/
theorem render_deterministic_spec_witness :
    renderBlockPreview "1/1/2026" { id := "x", type := "hero", config := [] } =
    renderBlockPreview "2/2/2026" { id := "x", type := "hero", config := [] } :=
  render_deterministic_spec.2 "1/1/2026" "2/2/2026"
    { id := "x", type := "hero", config := [] } (by decide) (by decide)

/-- C5 counterexample: `renderBlock` on a `hero` block with the empty
config interpolates the missing `backgroundImage` key with no default, so
the literal text `url('undefined')` leaks into the output. -/
theorem renderBlock_hero_empty_config_leaks_undefined :
    strContains (renderBlock { id := "b0", type := "hero", config := [] })
      "url('undefined')" = true := rfl

set_option maxRecDepth 80000 in
/-- C5 (amended): for every declared block type, rendering the empty config
yields non-empty, default-filled output — except the `hero` case of
`VisualPageEditor.renderBlock`, whose `backgroundImage` read has no default
and leaks the literal text `undefined`; every `renderBlockPreview` branch
succeeds on the empty config with non-empty output and no leaked
`undefined`. -/
theorem render_empty_config_defaults :
    (∀ ty ∈ renderBlockKnownTypes,
      renderBlock { id := "b0", type := ty, config := [] } ≠ "") ∧
    (∀ ty ∈ renderBlockKnownTypes, ty ≠ "hero" →
      strContains (renderBlock { id := "b0", type := ty, config := [] })
        "undefined" = false) ∧
    strContains (renderBlock { id := "b0", type := "hero", config := [] })
      "undefined" = true ∧
    (∀ ty ∈ previewKnownTypes,
      okNoUndefined (renderBlockPreview "2026-10-11"
        { id := "b0", type := ty, config := [] }) = true) := by
  refine ⟨?_, ?_, rfl, ?_⟩ <;> decide

/-- C5 witness: the defaults at the concrete `text` type. -/
theorem render_empty_config_defaults_witness :
    strContains (renderBlock { id := "b0", type := "text", config := [] })
      "undefined" = false ∧
    okNoUndefined (renderBlockPreview "2026-10-11"
      { id := "b0", type := "text", config := [] }) = true :=
  ⟨render_empty_config_defaults.2.1 "text" (by decide) (by decide),
   render_empty_config_defaults.2.2.2 "text" (by decide)⟩

end MerchantDashboard
